import Mathlib

/-!
# Label visibility state machine (tangram-es, `core/src/labels/label.cpp`)

A shallow embedding of `Tangram::Label`: the constructor, `enterState`, `setAlpha`,
`skipTransitions`, `resetState`, `canOcclude`, `visibleState`, `update` and `evalState`.

Conventions of the embedding:

* `float` values are exact rationals (`ℚ`).
* A member function that mutates `*this` becomes a function returning the new label
  (paired with the C++ return value when there is one).
* Declarations that live in headers outside `label.cpp` (the enumerations, `FadeEffect`,
  the macro `CLAMP`, the virtual `updateScreenTransform`) are either parameters of the
  embedding or small definitions whose doc comment starts with "Modelled from the spec:".
-/

namespace Tangram

/-! ## Data model -/

/-- The enumerators of `Label::State` that `label.cpp` refers to. -/
inductive State
  | fading_in
  | fading_out
  | visible
  | sleep
  | out_of_screen
  | wait_occ
  | skip_transition
  | dead
  deriving DecidableEq, Repr

/-- Modelled from the spec: `Label::Type` (declared in `label.h`). The spec names a debug-only
kind and normal kinds; `label.cpp` only ever compares against `Type::debug`, so every other
kind is an `other k`. -/
inductive LabelType
  | debug
  | other (k : Nat)
  deriving DecidableEq, Repr

/-- Modelled from the spec: `LabelProperty::Anchor` (declared outside `label.cpp`), the fixed
enumeration of placement origins: center, edge midpoints and corners. -/
inductive Anchor
  | center
  | top
  | bottom
  | left
  | right
  | top_left
  | top_right
  | bottom_left
  | bottom_right
  deriving DecidableEq, Repr

/-- A `glm::vec2` over exact rationals. -/
structure Vec2 where
  x : ℚ
  y : ℚ
  deriving DecidableEq

/-- The part `m_transform.state` of `Label::Transform` used by `label.cpp`:
the screen position and the render alpha. -/
structure TransformState where
  screenPos : Vec2
  alpha : ℚ
  deriving DecidableEq

/-- The member `Label::Transform`; `label.cpp` only touches its `state` part. -/
structure Transform where
  state : TransformState
  deriving DecidableEq

/-- Show/hide transition parameters: easing kind (of type `E`) and duration. -/
structure Transition (E : Type) where
  ease : E
  time : ℚ
  deriving DecidableEq

/-- The members of `Label::Options` used by `label.cpp`. -/
structure Options (E : Type) where
  collide : Bool
  priority : ℚ
  offset : Vec2
  showTransition : Transition E
  hideTransition : Transition E
  deriving DecidableEq

/-- The interface of the class `FadeEffect` (declared in a header outside `label.cpp`) as
`label.cpp` uses it; `F` is the type of a fade effect, `E` the type of easing kinds.

* `dflt` is the default-constructed effect held by a label before any transition starts;
* `make fadeIn ease duration` is the constructor `FadeEffect(_in, _ease, _duration)`;
* `update f dt` is `f.update(dt)`: the returned alpha and the effect after the call;
* `isFinished f` is `f.isFinished()`. -/
structure FadeEffectApi (F E : Type) where
  dflt : F
  make : Bool → E → ℚ → F
  update : F → ℚ → ℚ × F
  isFinished : F → Bool

/-- The data members of `Label` that `label.cpp` reads or writes. `m_parent` is the
non-owning parent pointer: `none` is `nullptr`, `some a` points to the label at address `a`. -/
structure Label (F E : Type) where
  m_type : LabelType
  m_transform : Transform
  m_dim : Vec2
  m_options : Options E
  m_anchorType : Anchor
  m_state : State
  m_fade : F
  m_occludedLastFrame : Bool
  m_occluded : Bool
  m_parent : Option Nat
  deriving DecidableEq

/-- Modelled from the spec: the macro `CLAMP(x, lo, hi)` (defined outside `label.cpp`); the spec
says alpha is "clamped to [0,1]" by it. -/
def CLAMP (x lo hi : ℚ) : ℚ :=
  if x < lo then lo else if x > hi then hi else x

namespace Label

variable {F E : Type}

/-- The render alpha `m_transform.state.alpha`. -/
def alpha (l : Label F E) : ℚ :=
  l.m_transform.state.alpha

/-- `Label::setAlpha`: `m_transform.state.alpha = CLAMP(_alpha, 0.0, 1.0)`. -/
def setAlpha (l : Label F E) (_alpha : ℚ) : Label F E :=
  { l with m_transform := { l.m_transform with
      state := { l.m_transform.state with alpha := CLAMP _alpha 0 1 } } }

/-- `Label::enterState`: nothing happens on a dead label; otherwise the state tag is set and
the alpha is assigned through `setAlpha`. -/
def enterState (l : Label F E) (_state : State) (_alpha : ℚ) : Label F E :=
  if l.m_state = State.dead then l
  else ({ l with m_state := _state }).setAlpha _alpha

/-- `Label::Label`. The member `m_state` has no initialiser in the constructor, and the first
branch goes through `enterState`, which reads it: `m_state0` is the value the member holds
when the constructor body starts (given by its declaration in `label.h`). The three members
assigned at the end of the body are written before they are ever read. -/
def construct (api : FadeEffectApi F E) (m_state0 : State) (_transform : Transform)
    (_size : Vec2) (_type : LabelType) (_options : Options E) (_anchor : Anchor) : Label F E :=
  let l0 : Label F E :=
    { m_type := _type, m_transform := _transform, m_dim := _size, m_options := _options,
      m_anchorType := _anchor, m_state := m_state0, m_fade := api.dflt,
      m_occludedLastFrame := false, m_occluded := false, m_parent := none }
  let l1 : Label F E :=
    if !l0.m_options.collide || l0.m_type = LabelType.debug then
      l0.enterState State.visible 1
    else
      { l0 with
        m_state := State.wait_occ
        m_transform := { l0.m_transform with state := { l0.m_transform.state with alpha := 0 } } }
  { l1 with m_occludedLastFrame := false, m_occluded := false, m_parent := none }

/-- `Label::skipTransitions`. -/
def skipTransitions (l : Label F E) : Label F E :=
  l.enterState State.skip_transition 0

/-- `Label::center`. -/
def center (l : Label F E) : Vec2 :=
  l.m_transform.state.screenPos

/-- `Label::resetState`. -/
def resetState (l : Label F E) : Label F E :=
  if l.m_state = State.dead then l
  else ({ l with m_occludedLastFrame := false, m_occluded := false }).enterState State.wait_occ 0

/-- `Label::offViewport`: the test is commented out in the source, the body is `return false`. -/
def offViewport (_l : Label F E) (_screenSize : Vec2) : Bool :=
  false

/-- `Label::canOcclude`. The numeric values of the `State` enumerators are declared in
`label.h`; `flag` gives them. The `int` result of `occludeFlags & m_state` converts to `bool`
as "non-zero". -/
def canOcclude (flag : State → Nat) (l : Label F E) : Bool :=
  if !l.m_options.collide then false
  else
    let occludeFlags : Nat :=
      flag State.visible ||| flag State.wait_occ ||| flag State.skip_transition |||
      flag State.fading_in ||| flag State.sleep ||| flag State.out_of_screen |||
      flag State.dead
    ((occludeFlags &&& flag l.m_state) != 0) && !(decide (l.m_type = LabelType.debug))

/-- `Label::visibleState`, with the enumerator values given by `flag` as in `canOcclude`. -/
def visibleState (flag : State → Nat) (l : Label F E) : Bool :=
  let visibleFlags : Nat :=
    flag State.visible ||| flag State.fading_in ||| flag State.fading_out |||
    flag State.skip_transition
  (visibleFlags &&& flag l.m_state) != 0

/-- `Label::update`. The pure virtual `updateScreenTransform` is implemented by the subclasses,
outside `label.cpp`: `ust l testVisibility` is its result on the label `l` for the camera
arguments of this frame (`_mvp`, `_screenSize`, and the out-parameter `_transform`), namely
the flag `ruleSatisfied` and the screen position it computed. -/
def update (ust : Label F E → Bool → Bool × Vec2) (l : Label F E) (_allLabels : Bool) :
    Bool × Label F E :=
  let l1 : Label F E := { l with m_occludedLastFrame := l.m_occluded, m_occluded := false }
  if l1.m_state = State.dead ∧ _allLabels = false then (false, l1)
  else
    let l2 : Label F E :=
      if l1.m_state = State.dead then { l1 with m_occluded := true } else l1
    let r := ust l2 (!_allLabels)
    let l3 : Label F E :=
      { l2 with m_transform := { l2.m_transform with
          state := { l2.m_transform.state with screenPos := r.2 } } }
    if !r.1 then (false, l3.enterState State.sleep 0)
    else (true, l3)

/-- `Label::evalState`: the C++ return value `animate` and the label after the call.
The argument `_screenSize` is unused by the source and left out. -/
def evalState (api : FadeEffectApi F E) (l : Label F E) (_dt : ℚ) : Bool × Label F E :=
  match l.m_state with
  | State.visible =>
    if l.m_occluded then
      let l1 : Label F E :=
        { l with m_fade := api.make false l.m_options.hideTransition.ease
                              l.m_options.hideTransition.time }
      (true, l1.enterState State.fading_out 1)
    else (false, l)
  | State.fading_in =>
    if l.m_occluded then (false, l.enterState State.sleep 0)
    else
      let r := api.update l.m_fade _dt
      let l1 : Label F E := ({ l with m_fade := r.2 }).setAlpha r.1
      if api.isFinished l1.m_fade then (true, l1.enterState State.visible 1)
      else (true, l1)
  | State.fading_out =>
    if !l.m_occluded then (true, l.enterState State.fading_in l.m_transform.state.alpha)
    else
      let r := api.update l.m_fade _dt
      let l1 : Label F E := ({ l with m_fade := r.2 }).setAlpha r.1
      if api.isFinished l1.m_fade then (true, l1.enterState State.sleep 0)
      else (true, l1)
  | State.wait_occ =>
    if l.m_occluded then (false, l.enterState State.sleep 0)
    else
      let l1 : Label F E :=
        { l with m_fade := api.make true l.m_options.showTransition.ease
                              l.m_options.showTransition.time }
      (true, l1.enterState State.fading_in 0)
  | State.skip_transition =>
    if l.m_occluded then (false, l.enterState State.sleep 0)
    else (false, l.enterState State.visible 1)
  | State.sleep =>
    if !l.m_occluded then
      let l1 : Label F E :=
        { l with m_fade := api.make true l.m_options.showTransition.ease
                              l.m_options.showTransition.time }
      (true, l1.enterState State.fading_in 0)
    else (false, l)
  | State.dead => (false, l)
  | State.out_of_screen => (false, l)

end Label

/-! ## Anchor composition -/

namespace Vec2

/-- Component-wise sum of two `glm::vec2`. -/
def add (a b : Vec2) : Vec2 :=
  { x := a.x + b.x, y := a.y + b.y }

/-- Component-wise product of two `glm::vec2`. -/
def mul (a b : Vec2) : Vec2 :=
  { x := a.x * b.x, y := a.y * b.y }

/-- Product of a `glm::vec2` with a scalar. -/
def scale (a : Vec2) (k : ℚ) : Vec2 :=
  { x := a.x * k, y := a.y * k }

end Vec2

/-- The virtual `applyAnchor` is implemented by the subclasses, outside `label.cpp`. This is
the frame condition under which `setParent` is studied: the call leaves the options, the
state, the alpha and the two occlusion flags of the label as they are. -/
def PlacesOnly {F E : Type} (applyAnchor : Label F E → Vec2 → Vec2 → Anchor → Label F E) :
    Prop :=
  ∀ (l : Label F E) (d o : Vec2) (a : Anchor),
    (applyAnchor l d o a).m_options = l.m_options ∧
    (applyAnchor l d o a).m_state = l.m_state ∧
    (applyAnchor l d o a).alpha = l.alpha ∧
    (applyAnchor l d o a).m_occluded = l.m_occluded ∧
    (applyAnchor l d o a).m_occludedLastFrame = l.m_occludedLastFrame

namespace Label

variable {F E : Type}

/-- `Label::setParent`. `_parentAddr` is the address `&_parent` stored in `m_parent`.
`anchorDirection` is `LabelProperty::anchorDirection` and `applyAnchor` is the virtual member
of that name; both are defined outside `label.cpp`. The arguments of `applyAnchor` are
evaluated before the call, on the label whose `m_parent` is already set. -/
def setParent (anchorDirection : Anchor → Vec2)
    (applyAnchor : Label F E → Vec2 → Vec2 → Anchor → Label F E)
    (l : Label F E) (_parentAddr : Nat) (_parent : Label F E) (_definePriority : Bool) :
    Label F E :=
  let l1 : Label F E := { l with m_parent := some _parentAddr }
  let anchorDir : Vec2 := anchorDirection _parent.m_anchorType
  let anchorOrigin : Vec2 := (anchorDir.mul _parent.m_dim).scale (1 / 2)
  let l2 : Label F E := applyAnchor l1 (l1.m_dim.add _parent.m_dim) anchorOrigin l1.m_anchorType
  let l3 : Label F E :=
    if _definePriority then
      { l2 with m_options := { l2.m_options with priority := _parent.m_options.priority + 1 / 2 } }
    else l2
  { l3 with m_options :=
      { l3.m_options with offset := l3.m_options.offset.add _parent.m_options.offset } }

end Label

/-! ## Calls on a label, and sequences of calls -/

/-- One call made on a label from outside. `frame occluded dt` is the FSM pass of one frame:
`evalState` runs with `dt` on the label whose member `m_occluded` holds `occluded`. -/
inductive Call (F E : Type)
  | update (ust : Label F E → Bool → Bool × Vec2) (allLabels : Bool)
  | frame (occluded : Bool) (dt : ℚ)
  | skipTransitions
  | resetState
  | enterState (s : State) (a : ℚ)

/-- The label after one call. -/
def Call.run {F E : Type} (api : FadeEffectApi F E) (l : Label F E) : Call F E → Label F E
  | Call.update ust allLabels => (l.update ust allLabels).2
  | Call.frame occluded dt => (({ l with m_occluded := occluded }).evalState api dt).2
  | Call.skipTransitions => l.skipTransitions
  | Call.resetState => l.resetState
  | Call.enterState s a => l.enterState s a

/-- The label after a sequence of calls, first call first. -/
def runCalls {F E : Type} (api : FadeEffectApi F E) (l : Label F E) (cs : List (Call F E)) :
    Label F E :=
  cs.foldl (Call.run api) l

/-- The label after a sequence of FSM passes, each given by its occlusion flag and its `dt`. -/
def runFrames {F E : Type} (api : FadeEffectApi F E) (l : Label F E) (fs : List (Bool × ℚ)) :
    Label F E :=
  fs.foldl (fun acc f => (({ acc with m_occluded := f.1 }).evalState api f.2).2) l

/-- Whether a call is a direct `enterState` call. -/
def Call.isEnterState {F E : Type} : Call F E → Bool
  | Call.enterState _ _ => true
  | _ => false

/-- State and alpha agree: a `visible` label has alpha 1, and a label in `sleep`, `wait_occ`
or `skip_transition` has alpha 0. -/
def Coherent {F E : Type} (l : Label F E) : Prop :=
  (l.m_state = State.visible → l.alpha = 1) ∧
  (l.m_state = State.sleep ∨ l.m_state = State.wait_occ ∨ l.m_state = State.skip_transition →
    l.alpha = 0)

/-- One call made on a label from outside, `setParent` included: either one of the calls of
`Call`, or `setParent` with the anchor direction table, the virtual `applyAnchor`, the address
of the parent, the parent and the flag `definePriority`. -/
inductive AnyCall (F E : Type)
  | basic (c : Call F E)
  | setParent (anchorDirection : Anchor → Vec2)
      (applyAnchor : Label F E → Vec2 → Vec2 → Anchor → Label F E)
      (parentAddr : Nat) (parent : Label F E) (definePriority : Bool)

/-- The label after one call of `AnyCall`. -/
def AnyCall.run {F E : Type} (api : FadeEffectApi F E) (l : Label F E) :
    AnyCall F E → Label F E
  | AnyCall.basic c => Call.run api l c
  | AnyCall.setParent anchorDirection applyAnchor parentAddr parent definePriority =>
      l.setParent anchorDirection applyAnchor parentAddr parent definePriority

/-- The label after a sequence of calls of `AnyCall`, first call first. -/
def runAnyCalls {F E : Type} (api : FadeEffectApi F E) (l : Label F E)
    (cs : List (AnyCall F E)) : Label F E :=
  cs.foldl (AnyCall.run api) l

/-- A call that is not a direct `enterState` call; for `setParent`, the virtual `applyAnchor`
it is made with satisfies the frame condition `PlacesOnly`. -/
def AnyCall.Indirect {F E : Type} : AnyCall F E → Prop
  | AnyCall.basic c => c.isEnterState = false
  | AnyCall.setParent _ applyAnchor _ _ _ => PlacesOnly applyAnchor

/-! ## The `State` enumerators as bit flags -/

/-- The enumerators of `State` are distinct single-bit flags: `flag s = 2 ^ bit s` for an
injective numbering `bit` of the states. -/
def BitFlags (flag : State → Nat) : Prop :=
  ∃ bit : State → Nat, Function.Injective bit ∧ ∀ s, flag s = 2 ^ bit s

/-- One assignment of single-bit flags to the states, used for concrete evaluation. -/
def stateFlag : State → Nat
  | State.fading_in => 1
  | State.fading_out => 2
  | State.visible => 4
  | State.sleep => 8
  | State.out_of_screen => 16
  | State.wait_occ => 32
  | State.skip_transition => 64
  | State.dead => 128

/-- The bit index behind `stateFlag`. -/
def stateBit : State → Nat
  | State.fading_in => 0
  | State.fading_out => 1
  | State.visible => 2
  | State.sleep => 3
  | State.out_of_screen => 4
  | State.wait_occ => 5
  | State.skip_transition => 6
  | State.dead => 7

/-! ## A concrete fade effect -/

/-- Modelled from the spec: the class `FadeEffect` (§4.2 of the spec; its header is outside
`label.cpp`): direction, easing kind, duration, and the accumulated elapsed time. -/
structure FadeEffect (E : Type) where
  fadeIn : Bool
  ease : E
  duration : ℚ
  elapsed : ℚ
  deriving DecidableEq

namespace FadeEffect

variable {E : Type}

/-- Modelled from the spec: the constructor of `FadeEffect`; a negative duration is clamped to
zero, no time has elapsed. -/
def make (fadeIn : Bool) (ease : E) (duration : ℚ) : FadeEffect E :=
  { fadeIn := fadeIn, ease := ease, duration := max duration 0, elapsed := 0 }

/-- Modelled from the spec: `FadeEffect::isFinished`, "whether elapsed ≥ duration". -/
def isFinished (f : FadeEffect E) : Bool :=
  decide (f.duration ≤ f.elapsed)

/-- Modelled from the spec: `FadeEffect::update`. It advances the elapsed time by `dt` and
returns the eased alpha for the elapsed fraction, held at the target (1 when fading in, 0 when
fading out) once the effect is finished; `easeFn` is the easing curve of each easing kind. -/
def update (easeFn : E → ℚ → ℚ) (f : FadeEffect E) (dt : ℚ) : ℚ × FadeEffect E :=
  let f1 : FadeEffect E := { f with elapsed := f.elapsed + dt }
  let target : ℚ := if f.fadeIn then 1 else 0
  let eased : ℚ := easeFn f.ease (f1.elapsed / f.duration)
  if f1.isFinished then (target, f1)
  else (if f.fadeIn then eased else 1 - eased, f1)

/-- The spec-modelled fade effect packaged as the interface `evalState` uses. -/
def api (easeFn : E → ℚ → ℚ) (dflt : FadeEffect E) : FadeEffectApi (FadeEffect E) E :=
  { dflt := dflt, make := make, update := update easeFn, isFinished := isFinished }

end FadeEffect

/-! ## Concrete labels for evaluation -/

/-- The linear fade effect interface: one easing kind, the identity curve. -/
def linearApi : FadeEffectApi (FadeEffect Unit) Unit :=
  FadeEffect.api (fun _ t => t) (FadeEffect.make true () (1 / 2))

/-- A transform at the origin with the given alpha. -/
def sampleTransform (a : ℚ) : Transform :=
  { state := { screenPos := { x := 0, y := 0 }, alpha := a } }

/-- Options with the given collision flag, show duration 1/2 and hide duration 1/4. -/
def sampleOptions (collide : Bool) : Options Unit :=
  { collide := collide, priority := 0, offset := { x := 0, y := 0 },
    showTransition := { ease := (), time := 1 / 2 },
    hideTransition := { ease := (), time := 1 / 4 } }

/-- A collidable label of a normal kind in state `s` with alpha `a` and occlusion flag `occ`. -/
def sampleLabel (s : State) (a : ℚ) (occ : Bool) : Label (FadeEffect Unit) Unit :=
  { m_type := LabelType.other 0, m_transform := sampleTransform a,
    m_dim := { x := 10, y := 4 }, m_options := sampleOptions true,
    m_anchorType := Anchor.center, m_state := s, m_fade := linearApi.dflt,
    m_occludedLastFrame := false, m_occluded := occ, m_parent := none }

/-- A projection that always reports the given validity and the origin as screen position. -/
def sampleUst (ok : Bool) : Label (FadeEffect Unit) Unit → Bool → Bool × Vec2 :=
  fun _ _ => (ok, { x := 0, y := 0 })

/-- An anchor direction table for evaluation: the corner and edge directions. -/
def sampleAnchorDirection : Anchor → Vec2
  | Anchor.center => { x := 0, y := 0 }
  | Anchor.top => { x := 0, y := -1 }
  | Anchor.bottom => { x := 0, y := 1 }
  | Anchor.left => { x := -1, y := 0 }
  | Anchor.right => { x := 1, y := 0 }
  | Anchor.top_left => { x := -1, y := -1 }
  | Anchor.top_right => { x := 1, y := -1 }
  | Anchor.bottom_left => { x := -1, y := 1 }
  | Anchor.bottom_right => { x := 1, y := 1 }

/-- An `applyAnchor` for evaluation: it moves the screen position to the given origin. -/
def sampleApplyAnchor (l : Label (FadeEffect Unit) Unit) (_dimension _origin : Vec2)
    (_anchor : Anchor) : Label (FadeEffect Unit) Unit :=
  { l with m_transform := { state := { screenPos := _origin, alpha := l.m_transform.state.alpha } } }

/-- A parent label for evaluation: priority 3, offset (2, 5), footprint (100, 20), anchored at
its top-left corner. -/
def sampleParent : Label (FadeEffect Unit) Unit :=
  { m_type := LabelType.other 0, m_transform := sampleTransform 1,
    m_dim := { x := 100, y := 20 },
    m_options := { collide := true, priority := 3, offset := { x := 2, y := 5 },
                   showTransition := { ease := (), time := 1 / 2 },
                   hideTransition := { ease := (), time := 1 / 4 } },
    m_anchorType := Anchor.top_left, m_state := State.visible, m_fade := linearApi.dflt,
    m_occludedLastFrame := false, m_occluded := false, m_parent := none }

/-- A label fading out for evaluation: alpha 3/5, not occluded, holding a fade-out effect of
duration 1/4 of which 1/10 has elapsed. -/
def sampleFadingOut : Label (FadeEffect Unit) Unit :=
  { sampleLabel State.fading_out (3 / 5) false with
    m_fade := { fadeIn := false, ease := (), duration := 1 / 4, elapsed := 1 / 10 } }

/-! ## Basic facts about `CLAMP`, `setAlpha` and `enterState` -/

theorem CLAMP_zero : CLAMP 0 0 1 = 0 := by
  simp [CLAMP]

theorem CLAMP_one : CLAMP 1 0 1 = 1 := by
  simp [CLAMP]

theorem CLAMP_nonneg (x : ℚ) : 0 ≤ CLAMP x 0 1 := by
  unfold CLAMP
  split_ifs with h1 h2
  · exact le_refl 0
  · exact zero_le_one
  · exact not_lt.mp h1

theorem CLAMP_le_one (x : ℚ) : CLAMP x 0 1 ≤ 1 := by
  unfold CLAMP
  split_ifs with h1 h2
  · exact zero_le_one
  · exact le_refl 1
  · exact not_lt.mp h2

theorem CLAMP_of_mem {a : ℚ} (h0 : 0 ≤ a) (h1 : a ≤ 1) : CLAMP a 0 1 = a := by
  unfold CLAMP
  rw [if_neg (not_lt.mpr h0), if_neg (not_lt.mpr h1)]

namespace Label

variable {F E : Type}

theorem enterState_of_dead (l : Label F E) (s : State) (a : ℚ) (h : l.m_state = State.dead) :
    l.enterState s a = l := by
  simp [enterState, h]

theorem enterState_of_not_dead (l : Label F E) (s : State) (a : ℚ)
    (h : l.m_state ≠ State.dead) :
    l.enterState s a = ({ l with m_state := s }).setAlpha a := by
  simp [enterState, h]

theorem enterState_state (l : Label F E) (s : State) (a : ℚ) (h : l.m_state ≠ State.dead) :
    (l.enterState s a).m_state = s := by
  simp [enterState, h, setAlpha]

theorem enterState_alpha (l : Label F E) (s : State) (a : ℚ) (h : l.m_state ≠ State.dead) :
    (l.enterState s a).alpha = CLAMP a 0 1 := by
  simp [enterState, h, setAlpha, alpha]

theorem setAlpha_alpha (l : Label F E) (a : ℚ) : (l.setAlpha a).alpha = CLAMP a 0 1 := by
  simp [setAlpha, alpha]

theorem setAlpha_state (l : Label F E) (a : ℚ) : (l.setAlpha a).m_state = l.m_state := by
  simp [setAlpha]

end Label

/-! ## Construction -/

/-- Construction rule, away from the dead guard: when the value `m_state0` that the member
holds at the start of the constructor body is not `dead`, a label constructed with collision
disabled or of the debug kind is in state `visible` with alpha 1; every other label is in state
`wait_occ` with alpha 0; in both cases `occluded` and `occludedLastFrame` are false and there
is no parent. -/
theorem construct_rule {F E : Type} (api : FadeEffectApi F E) (m_state0 : State)
    (h0 : m_state0 ≠ State.dead) (_transform : Transform) (_size : Vec2) (_type : LabelType)
    (_options : Options E) (_anchor : Anchor) :
    ((_options.collide = false ∨ _type = LabelType.debug) →
        (Label.construct api m_state0 _transform _size _type _options _anchor).m_state
            = State.visible ∧
        (Label.construct api m_state0 _transform _size _type _options _anchor).alpha = 1) ∧
    ((_options.collide = true ∧ _type ≠ LabelType.debug) →
        (Label.construct api m_state0 _transform _size _type _options _anchor).m_state
            = State.wait_occ ∧
        (Label.construct api m_state0 _transform _size _type _options _anchor).alpha = 0) ∧
    (Label.construct api m_state0 _transform _size _type _options _anchor).m_occluded = false ∧
    (Label.construct api m_state0 _transform _size _type _options _anchor).m_occludedLastFrame
        = false ∧
    (Label.construct api m_state0 _transform _size _type _options _anchor).m_parent = none := by
  refine ⟨?_, ?_, rfl, rfl, rfl⟩
  · intro h
    have hc : (!_options.collide || decide (_type = LabelType.debug)) = true := by
      rcases h with h | h <;> simp [h]
    simp [Label.construct, hc, Label.enterState, h0, Label.setAlpha, Label.alpha, CLAMP_one]
  · rintro ⟨h1, h2⟩
    simp [Label.construct, h1, h2, Label.alpha]

/-- An instance of `construct_rule`: a non-colliding label built over a `wait_occ` member
value. -/
theorem construct_rule_witness :
    State.wait_occ ≠ State.dead ∧
    (Label.construct linearApi State.wait_occ (sampleTransform (1 / 3)) { x := 10, y := 4 }
        (LabelType.other 0) (sampleOptions false) Anchor.center).m_state = State.visible ∧
    (Label.construct linearApi State.wait_occ (sampleTransform (1 / 3)) { x := 10, y := 4 }
        (LabelType.other 0) (sampleOptions false) Anchor.center).alpha = 1 :=
  ⟨by decide,
   (construct_rule linearApi State.wait_occ (by decide) (sampleTransform (1 / 3))
      { x := 10, y := 4 } (LabelType.other 0) (sampleOptions false) Anchor.center).1
      (Or.inl rfl)⟩

/-! ## The transition table of `evalState` -/

/-- C2. Non-fading rows of the transition table. For a label in state `visible`, `wait_occ`,
`skip_transition` or `sleep` and every `dt`, the label after `evalState` is exactly the row of
the table: visible and occluded gives `fading_out` with alpha 1 and a fresh fade-out effect
built from `hideTransition`; visible and not occluded is unchanged; `wait_occ` and occluded
gives `sleep` with alpha 0; `wait_occ` and not occluded gives `fading_in` with alpha 0 and a
fresh fade-in effect built from `showTransition`; `skip_transition` and occluded gives `sleep`
with alpha 0; `skip_transition` and not occluded gives `visible` with alpha 1, the fade effect
untouched; `sleep` and not occluded gives `fading_in` with alpha 0 and a fresh fade-in effect;
`sleep` and occluded is unchanged. Every other member is left as it was. -/
theorem evalState_static_rows {F E : Type} (api : FadeEffectApi F E) (l : Label F E) (dt : ℚ) :
    (l.m_state = State.visible → l.m_occluded = true →
      (l.evalState api dt).2 =
        { l with
          m_state := State.fading_out
          m_fade := api.make false l.m_options.hideTransition.ease l.m_options.hideTransition.time
          m_transform := { state := { screenPos := l.m_transform.state.screenPos, alpha := 1 } } }) ∧
    (l.m_state = State.visible → l.m_occluded = false → (l.evalState api dt).2 = l) ∧
    (l.m_state = State.wait_occ → l.m_occluded = true →
      (l.evalState api dt).2 =
        { l with
          m_state := State.sleep
          m_transform := { state := { screenPos := l.m_transform.state.screenPos, alpha := 0 } } }) ∧
    (l.m_state = State.wait_occ → l.m_occluded = false →
      (l.evalState api dt).2 =
        { l with
          m_state := State.fading_in
          m_fade := api.make true l.m_options.showTransition.ease l.m_options.showTransition.time
          m_transform := { state := { screenPos := l.m_transform.state.screenPos, alpha := 0 } } }) ∧
    (l.m_state = State.skip_transition → l.m_occluded = true →
      (l.evalState api dt).2 =
        { l with
          m_state := State.sleep
          m_transform := { state := { screenPos := l.m_transform.state.screenPos, alpha := 0 } } }) ∧
    (l.m_state = State.skip_transition → l.m_occluded = false →
      (l.evalState api dt).2 =
        { l with
          m_state := State.visible
          m_transform := { state := { screenPos := l.m_transform.state.screenPos, alpha := 1 } } }) ∧
    (l.m_state = State.sleep → l.m_occluded = false →
      (l.evalState api dt).2 =
        { l with
          m_state := State.fading_in
          m_fade := api.make true l.m_options.showTransition.ease l.m_options.showTransition.time
          m_transform := { state := { screenPos := l.m_transform.state.screenPos, alpha := 0 } } }) ∧
    (l.m_state = State.sleep → l.m_occluded = true → (l.evalState api dt).2 = l) := by
  refine ⟨?_, ?_, ?_, ?_, ?_, ?_, ?_, ?_⟩ <;> intro hs ho <;>
    simp [Label.evalState, hs, ho, Label.enterState, Label.setAlpha, CLAMP_one, CLAMP_zero]

/-- Witness for C2: the row "visible and occluded" on a concrete label. -/
theorem evalState_static_rows_witness :
    (sampleLabel State.visible 1 true).m_state = State.visible ∧
    (sampleLabel State.visible 1 true).m_occluded = true ∧
    ((sampleLabel State.visible 1 true).evalState linearApi (1 / 10)).2 =
      { sampleLabel State.visible 1 true with
        m_state := State.fading_out
        m_fade := linearApi.make false () (1 / 4)
        m_transform := { state := { screenPos := { x := 0, y := 0 }, alpha := 1 } } } :=
  ⟨rfl, rfl,
   (evalState_static_rows linearApi (sampleLabel State.visible 1 true) (1 / 10)).1 rfl rfl⟩

/-- C3. Fade progression rows. A label in `fading_in` that is occluded goes to `sleep` with
alpha 0. When it is not occluded, the fade effect is updated with `dt` and alpha becomes the
clamped value it returns; if the updated effect is finished the state becomes `visible` with
alpha 1, otherwise the state stays `fading_in`. A label in `fading_out` that is occluded is
advanced the same way, and goes to `sleep` with alpha 0 if the updated effect is finished,
otherwise it stays in `fading_out`. Every other member is left as it was. -/
theorem evalState_fade_rows {F E : Type} (api : FadeEffectApi F E) (l : Label F E) (dt : ℚ) :
    (l.m_state = State.fading_in → l.m_occluded = true →
      (l.evalState api dt).2 =
        { l with
          m_state := State.sleep
          m_transform := { state := { screenPos := l.m_transform.state.screenPos, alpha := 0 } } }) ∧
    (l.m_state = State.fading_in → l.m_occluded = false →
      api.isFinished (api.update l.m_fade dt).2 = true →
      (l.evalState api dt).2 =
        { l with
          m_state := State.visible
          m_fade := (api.update l.m_fade dt).2
          m_transform := { state := { screenPos := l.m_transform.state.screenPos, alpha := 1 } } }) ∧
    (l.m_state = State.fading_in → l.m_occluded = false →
      api.isFinished (api.update l.m_fade dt).2 = false →
      (l.evalState api dt).2 =
        { l with
          m_fade := (api.update l.m_fade dt).2
          m_transform := { state := { screenPos := l.m_transform.state.screenPos,
                                      alpha := CLAMP (api.update l.m_fade dt).1 0 1 } } }) ∧
    (l.m_state = State.fading_out → l.m_occluded = true →
      api.isFinished (api.update l.m_fade dt).2 = true →
      (l.evalState api dt).2 =
        { l with
          m_state := State.sleep
          m_fade := (api.update l.m_fade dt).2
          m_transform := { state := { screenPos := l.m_transform.state.screenPos, alpha := 0 } } }) ∧
    (l.m_state = State.fading_out → l.m_occluded = true →
      api.isFinished (api.update l.m_fade dt).2 = false →
      (l.evalState api dt).2 =
        { l with
          m_fade := (api.update l.m_fade dt).2
          m_transform := { state := { screenPos := l.m_transform.state.screenPos,
                                      alpha := CLAMP (api.update l.m_fade dt).1 0 1 } } }) := by
  refine ⟨?_, ?_, ?_, ?_, ?_⟩
  · intro hs ho
    simp [Label.evalState, hs, ho, Label.enterState, Label.setAlpha, CLAMP_zero]
  · intro hs ho hf
    simp [Label.evalState, hs, ho, hf, Label.enterState, Label.setAlpha, CLAMP_one]
  · intro hs ho hf
    simp [Label.evalState, hs, ho, hf, Label.setAlpha]
  · intro hs ho hf
    simp [Label.evalState, hs, ho, hf, Label.enterState, Label.setAlpha, CLAMP_zero]
  · intro hs ho hf
    simp [Label.evalState, hs, ho, hf, Label.setAlpha]

/-- Witness for C3: a label fading in, not occluded, whose effect is not finished after the
update: alpha becomes the clamped value returned by the effect. -/
theorem evalState_fade_rows_witness :
    (sampleLabel State.fading_in 0 false).m_state = State.fading_in ∧
    (sampleLabel State.fading_in 0 false).m_occluded = false ∧
    linearApi.isFinished
      (linearApi.update (sampleLabel State.fading_in 0 false).m_fade (1 / 10)).2 = false ∧
    ((sampleLabel State.fading_in 0 false).evalState linearApi (1 / 10)).2 =
      { sampleLabel State.fading_in 0 false with
        m_fade := (linearApi.update (sampleLabel State.fading_in 0 false).m_fade (1 / 10)).2
        m_transform :=
          { state :=
            { screenPos := (sampleLabel State.fading_in 0 false).m_transform.state.screenPos
              alpha :=
                CLAMP (linearApi.update (sampleLabel State.fading_in 0 false).m_fade
                  (1 / 10)).1 0 1 } } } :=
  have hf : linearApi.isFinished
      (linearApi.update (sampleLabel State.fading_in 0 false).m_fade (1 / 10)).2 = false := by
    simp [sampleLabel, linearApi, FadeEffect.api, FadeEffect.update, FadeEffect.make,
      FadeEffect.isFinished]
    norm_num
  ⟨rfl, rfl, hf,
   (evalState_fade_rows linearApi (sampleLabel State.fading_in 0 false) (1 / 10)).2.2.1
      rfl rfl hf⟩

/-- C4. Fade round-trip. A label in `fading_out` whose alpha lies in [0,1] and that is not
occluded goes to `fading_in` with exactly the alpha it had, and `evalState` returns true. In
particular a `visible` label that is occluded for one `evalState` and not occluded for the next
is in `fading_out` after the first call and in `fading_in` after the second, with the alpha it
held between the two calls. -/
theorem fade_round_trip {F E : Type} (api : FadeEffectApi F E) :
    (∀ (l : Label F E) (dt : ℚ), l.m_state = State.fading_out → l.m_occluded = false →
      0 ≤ l.alpha → l.alpha ≤ 1 →
      (l.evalState api dt).1 = true ∧
      (l.evalState api dt).2.m_state = State.fading_in ∧
      (l.evalState api dt).2.alpha = l.alpha) ∧
    (∀ (l : Label F E) (dt1 dt2 : ℚ), l.m_state = State.visible →
      (({ l with m_occluded := true }).evalState api dt1).2.m_state = State.fading_out ∧
      (({ (({ l with m_occluded := true }).evalState api dt1).2 with
            m_occluded := false }).evalState api dt2).1 = true ∧
      (({ (({ l with m_occluded := true }).evalState api dt1).2 with
            m_occluded := false }).evalState api dt2).2.m_state = State.fading_in ∧
      (({ (({ l with m_occluded := true }).evalState api dt1).2 with
            m_occluded := false }).evalState api dt2).2.alpha
        = (({ l with m_occluded := true }).evalState api dt1).2.alpha) := by
  constructor
  · intro l dt hs ho h0 h1
    have hc : CLAMP l.m_transform.state.alpha 0 1 = l.m_transform.state.alpha :=
      CLAMP_of_mem h0 h1
    simp [Label.evalState, hs, ho, Label.enterState, Label.setAlpha, Label.alpha, hc]
  · intro l dt1 dt2 hs
    simp [Label.evalState, hs, Label.enterState, Label.setAlpha, Label.alpha, CLAMP_one]

/-- Witness for C4: a label fading out at alpha 2/5 resumes fading in at alpha 2/5. -/
theorem fade_round_trip_witness :
    (sampleLabel State.fading_out (2 / 5) false).m_state = State.fading_out ∧
    (sampleLabel State.fading_out (2 / 5) false).m_occluded = false ∧
    (0 : ℚ) ≤ (sampleLabel State.fading_out (2 / 5) false).alpha ∧
    (sampleLabel State.fading_out (2 / 5) false).alpha ≤ 1 ∧
    ((sampleLabel State.fading_out (2 / 5) false).evalState linearApi (1 / 10)).2.m_state
      = State.fading_in ∧
    ((sampleLabel State.fading_out (2 / 5) false).evalState linearApi (1 / 10)).2.alpha
      = (sampleLabel State.fading_out (2 / 5) false).alpha :=
  have h0 : (0 : ℚ) ≤ (sampleLabel State.fading_out (2 / 5) false).alpha := by
    simp [sampleLabel, sampleTransform, Label.alpha]
    norm_num
  have h1 : (sampleLabel State.fading_out (2 / 5) false).alpha ≤ 1 := by
    simp [sampleLabel, sampleTransform, Label.alpha]
    norm_num
  ⟨rfl, rfl, h0, h1,
   ((fade_round_trip linearApi).1 (sampleLabel State.fading_out (2 / 5) false) (1 / 10)
      rfl rfl h0 h1).2⟩

/-! ## Invariants over sequences of calls -/

namespace Label

variable {F E : Type}

theorem enterState_alpha_mem (l : Label F E) (s : State) (a : ℚ)
    (h : 0 ≤ l.alpha ∧ l.alpha ≤ 1) :
    0 ≤ (l.enterState s a).alpha ∧ (l.enterState s a).alpha ≤ 1 := by
  by_cases hd : l.m_state = State.dead
  · rw [enterState_of_dead l s a hd]
    exact h
  · rw [enterState_alpha l s a hd]
    exact ⟨CLAMP_nonneg a, CLAMP_le_one a⟩

theorem setAlpha_alpha_mem (l : Label F E) (a : ℚ) :
    0 ≤ (l.setAlpha a).alpha ∧ (l.setAlpha a).alpha ≤ 1 := by
  rw [setAlpha_alpha]
  exact ⟨CLAMP_nonneg a, CLAMP_le_one a⟩

theorem evalState_alpha_mem (api : FadeEffectApi F E) (l : Label F E) (dt : ℚ)
    (h : 0 ≤ l.alpha ∧ l.alpha ≤ 1) :
    0 ≤ (l.evalState api dt).2.alpha ∧ (l.evalState api dt).2.alpha ≤ 1 := by
  have h1 : 0 ≤ l.m_transform.state.alpha := h.1
  have h2 : l.m_transform.state.alpha ≤ 1 := h.2
  cases hs : l.m_state <;>
    simp only [evalState, hs, enterState, setAlpha, alpha] <;>
    (try split_ifs) <;>
    simp [CLAMP_nonneg, CLAMP_le_one, h1, h2]

theorem update_alpha_mem (ust : Label F E → Bool → Bool × Vec2) (l : Label F E)
    (allLabels : Bool) (h : 0 ≤ l.alpha ∧ l.alpha ≤ 1) :
    0 ≤ (l.update ust allLabels).2.alpha ∧ (l.update ust allLabels).2.alpha ≤ 1 := by
  unfold update
  simp only []
  split_ifs
  · exact h
  · exact enterState_alpha_mem _ _ _ h
  · exact h
  · exact enterState_alpha_mem _ _ _ h
  · exact h

theorem evalState_of_dead (api : FadeEffectApi F E) (l : Label F E) (dt : ℚ)
    (h : l.m_state = State.dead) : l.evalState api dt = (false, l) := by
  simp [evalState, h]

theorem update_of_dead (ust : Label F E → Bool → Bool × Vec2) (l : Label F E)
    (allLabels : Bool) (h : l.m_state = State.dead) :
    (l.update ust allLabels).2.m_state = State.dead ∧
    (l.update ust allLabels).2.alpha = l.alpha := by
  cases allLabels <;> simp [update, h, enterState, alpha]
  split_ifs <;> simp

end Label

theorem Call.run_of_dead {F E : Type} (api : FadeEffectApi F E) (l : Label F E) (c : Call F E)
    (h : l.m_state = State.dead) :
    (Call.run api l c).m_state = State.dead ∧ (Call.run api l c).alpha = l.alpha := by
  cases c with
  | update ust allLabels => exact Label.update_of_dead ust l allLabels h
  | frame occluded dt =>
    simp [Call.run, Label.evalState, h, Label.alpha]
  | skipTransitions => simp [Call.run, Label.skipTransitions, Label.enterState, h]
  | resetState => simp [Call.run, Label.resetState, h]
  | enterState s a => simp [Call.run, Label.enterState, h]

theorem Call.run_alpha_mem {F E : Type} (api : FadeEffectApi F E) (l : Label F E) (c : Call F E)
    (h : 0 ≤ l.alpha ∧ l.alpha ≤ 1) :
    0 ≤ (Call.run api l c).alpha ∧ (Call.run api l c).alpha ≤ 1 := by
  cases c with
  | update ust allLabels => exact Label.update_alpha_mem ust l allLabels h
  | frame occluded dt => exact Label.evalState_alpha_mem api _ dt h
  | skipTransitions => exact Label.enterState_alpha_mem l _ _ h
  | resetState =>
    simp only [Call.run, Label.resetState]
    split_ifs
    · exact h
    · exact Label.enterState_alpha_mem _ _ _ h
  | enterState s a => exact Label.enterState_alpha_mem l s a h

theorem runCalls_alpha_mem {F E : Type} (api : FadeEffectApi F E) (cs : List (Call F E)) :
    ∀ l : Label F E, 0 ≤ l.alpha ∧ l.alpha ≤ 1 →
      0 ≤ (runCalls api l cs).alpha ∧ (runCalls api l cs).alpha ≤ 1 := by
  induction cs with
  | nil => intro l h; exact h
  | cons c cs ih =>
    intro l h
    exact ih (Call.run api l c) (Call.run_alpha_mem api l c h)

theorem construct_alpha_mem {F E : Type} (api : FadeEffectApi F E) (m_state0 : State)
    (h0 : m_state0 ≠ State.dead) (_transform : Transform) (_size : Vec2) (_type : LabelType)
    (_options : Options E) (_anchor : Anchor) :
    0 ≤ (Label.construct api m_state0 _transform _size _type _options _anchor).alpha ∧
    (Label.construct api m_state0 _transform _size _type _options _anchor).alpha ≤ 1 := by
  by_cases hc : (!_options.collide || decide (_type = LabelType.debug)) = true
  · simp [Label.construct, hc, Label.enterState, h0, Label.setAlpha, Label.alpha, CLAMP_one]
  · simp [Label.construct, hc, Label.alpha]

/-- C5. `dead` is absorbing: on a label whose state is `dead`, any sequence of `update`,
`evalState` (with any occlusion flag and any `dt`), `skipTransitions`, `resetState` and
`enterState` (with any target state and alpha) calls leaves the state `dead` and the alpha
unchanged. -/
theorem dead_absorbing {F E : Type} (api : FadeEffectApi F E) (cs : List (Call F E))
    (l : Label F E) (h : l.m_state = State.dead) :
    (runCalls api l cs).m_state = State.dead ∧ (runCalls api l cs).alpha = l.alpha := by
  induction cs generalizing l with
  | nil => exact ⟨h, rfl⟩
  | cons c cs ih =>
    have hc := Call.run_of_dead api l c h
    have hr := ih (Call.run api l c) hc.1
    exact ⟨hr.1, hr.2.trans hc.2⟩

/-- Clamp invariant, away from the dead guard: when the value `m_state0` that the member holds
at the start of the constructor body is not `dead`, then after the constructor and after every
sequence of `update`, `evalState`, `skipTransitions`, `resetState` and `enterState` calls, with
any alpha argument and any value returned by the fade effect, the alpha of the label lies in
[0,1]. -/
theorem clamp_invariant {F E : Type} (api : FadeEffectApi F E) (m_state0 : State)
    (h0 : m_state0 ≠ State.dead) (_transform : Transform) (_size : Vec2) (_type : LabelType)
    (_options : Options E) (_anchor : Anchor) (cs : List (Call F E)) :
    0 ≤ (runCalls api
          (Label.construct api m_state0 _transform _size _type _options _anchor) cs).alpha ∧
    (runCalls api
          (Label.construct api m_state0 _transform _size _type _options _anchor) cs).alpha ≤ 1 :=
  runCalls_alpha_mem api cs _
    (construct_alpha_mem api m_state0 h0 _transform _size _type _options _anchor)

/-- Witness for C5: a dead label at alpha 1/3 after a frame, `skipTransitions`, `resetState`,
`enterState` and `update`. -/
theorem dead_absorbing_witness :
    (sampleLabel State.dead (1 / 3) true).m_state = State.dead ∧
    (runCalls linearApi (sampleLabel State.dead (1 / 3) true)
      [Call.frame false (1 / 10), Call.skipTransitions, Call.resetState,
       Call.enterState State.visible 1, Call.update (sampleUst false) true]).m_state
      = State.dead ∧
    (runCalls linearApi (sampleLabel State.dead (1 / 3) true)
      [Call.frame false (1 / 10), Call.skipTransitions, Call.resetState,
       Call.enterState State.visible 1, Call.update (sampleUst false) true]).alpha
      = (sampleLabel State.dead (1 / 3) true).alpha :=
  ⟨rfl,
   dead_absorbing linearApi
     [Call.frame false (1 / 10), Call.skipTransitions, Call.resetState,
      Call.enterState State.visible 1, Call.update (sampleUst false) true]
     (sampleLabel State.dead (1 / 3) true) rfl⟩

/-- An instance of `clamp_invariant`: a collidable label after a frame that starts the fade-in,
a frame that advances it, and an `enterState` with an alpha argument outside [0,1]. -/
theorem clamp_invariant_witness :
    State.wait_occ ≠ State.dead ∧
    0 ≤ (runCalls linearApi
          (Label.construct linearApi State.wait_occ (sampleTransform 7) { x := 10, y := 4 }
            (LabelType.other 0) (sampleOptions true) Anchor.center)
          [Call.frame false (1 / 10), Call.frame false (1 / 10),
           Call.enterState State.fading_out 3]).alpha ∧
    (runCalls linearApi
          (Label.construct linearApi State.wait_occ (sampleTransform 7) { x := 10, y := 4 }
            (LabelType.other 0) (sampleOptions true) Anchor.center)
          [Call.frame false (1 / 10), Call.frame false (1 / 10),
           Call.enterState State.fading_out 3]).alpha ≤ 1 :=
  ⟨by decide,
   clamp_invariant linearApi State.wait_occ (by decide) (sampleTransform 7) { x := 10, y := 4 }
     (LabelType.other 0) (sampleOptions true) Anchor.center
     [Call.frame false (1 / 10), Call.frame false (1 / 10),
      Call.enterState State.fading_out 3]⟩

/-! ## Labels that do not collide -/

theorem runFrames_visible_not_occluded {F E : Type} (api : FadeEffectApi F E)
    (fs : List (Bool × ℚ)) (hfs : ∀ f ∈ fs, f.1 = false) :
    ∀ l : Label F E, l.m_state = State.visible →
      (runFrames api l fs).m_state = State.visible ∧ (runFrames api l fs).alpha = l.alpha := by
  induction fs with
  | nil => intro l h; exact ⟨h, rfl⟩
  | cons f fs ih =>
    intro l h
    have hf : f.1 = false := hfs f (List.mem_cons_self f fs)
    have hstep : (({ l with m_occluded := f.1 } : Label F E).evalState api f.2).2
        = { l with m_occluded := f.1 } := by
      simp [Label.evalState, h, hf]
    have hr := ih (fun g hg => hfs g (List.mem_cons_of_mem f hg))
      ({ l with m_occluded := f.1 }) h
    simp only [runFrames, List.foldl_cons, hstep] at hr ⊢
    exact hr

theorem construct_of_not_collide {F E : Type} (api : FadeEffectApi F E) (m_state0 : State)
    (h0 : m_state0 ≠ State.dead) (_transform : Transform) (_size : Vec2) (_type : LabelType)
    (_options : Options E) (_anchor : Anchor) (hc : _options.collide = false) :
    (Label.construct api m_state0 _transform _size _type _options _anchor).m_state
      = State.visible ∧
    (Label.construct api m_state0 _transform _size _type _options _anchor).alpha = 1 := by
  simp [Label.construct, hc, Label.enterState, h0, Label.setAlpha, Label.alpha, CLAMP_one]

/-- Counterexample for C7: a label constructed with collision disabled, then one `evalState`
with the occlusion flag set, is in state `fading_out`, not `visible`. -/
theorem noncolliding_always_visible_counterexample :
    (sampleOptions false).collide = false ∧
    (runFrames linearApi
      (Label.construct linearApi State.wait_occ (sampleTransform 0) { x := 10, y := 4 }
        (LabelType.other 0) (sampleOptions false) Anchor.center)
      [(true, 1 / 10)]).m_state = State.fading_out ∧
    ¬ ((runFrames linearApi
      (Label.construct linearApi State.wait_occ (sampleTransform 0) { x := 10, y := 4 }
        (LabelType.other 0) (sampleOptions false) Anchor.center)
      [(true, 1 / 10)]).m_state = State.visible) := by
  refine ⟨rfl, ?_, ?_⟩ <;> decide

/-- C7, amended. A label constructed with collision disabled, whose member `m_state` did not
hold `dead` when the constructor body started (the value `m_state0` that the constructor reads
through `enterState`), is in state `visible` with alpha 1 right after construction and after
every sequence of `evalState` calls in which the occlusion flag is false at each call,
whatever the `dt` values. -/
theorem noncolliding_visible_while_not_occluded {F E : Type} (api : FadeEffectApi F E)
    (m_state0 : State) (h0 : m_state0 ≠ State.dead) (_transform : Transform) (_size : Vec2)
    (_type : LabelType) (_options : Options E) (_anchor : Anchor)
    (hc : _options.collide = false) (fs : List (Bool × ℚ)) (hfs : ∀ f ∈ fs, f.1 = false) :
    (runFrames api
      (Label.construct api m_state0 _transform _size _type _options _anchor) fs).m_state
        = State.visible ∧
    (runFrames api
      (Label.construct api m_state0 _transform _size _type _options _anchor) fs).alpha = 1 := by
  have hcon := construct_of_not_collide api m_state0 h0 _transform _size _type _options
    _anchor hc
  have hr := runFrames_visible_not_occluded api fs hfs _ hcon.1
  exact ⟨hr.1, hr.2.trans hcon.2⟩

/-- Witness for C7, amended: a non-colliding label after three frames without occlusion. -/
theorem noncolliding_visible_while_not_occluded_witness :
    State.wait_occ ≠ State.dead ∧
    (sampleOptions false).collide = false ∧
    (∀ f ∈ [((false : Bool), (1 / 10 : ℚ)), (false, 1 / 2), (false, 0)], f.1 = false) ∧
    (runFrames linearApi
      (Label.construct linearApi State.wait_occ (sampleTransform 0) { x := 10, y := 4 }
        (LabelType.other 0) (sampleOptions false) Anchor.center)
      [(false, 1 / 10), (false, 1 / 2), (false, 0)]).m_state = State.visible ∧
    (runFrames linearApi
      (Label.construct linearApi State.wait_occ (sampleTransform 0) { x := 10, y := 4 }
        (LabelType.other 0) (sampleOptions false) Anchor.center)
      [(false, 1 / 10), (false, 1 / 2), (false, 0)]).alpha = 1 :=
  have hfs : ∀ f ∈ [((false : Bool), (1 / 10 : ℚ)), (false, 1 / 2), (false, 0)],
      f.1 = false := by
    intro f hf
    simp only [List.mem_cons, List.mem_singleton, List.not_mem_nil, or_false] at hf
    rcases hf with hf | hf | hf <;> rw [hf]
  ⟨by decide, rfl, hfs,
   noncolliding_visible_while_not_occluded linearApi State.wait_occ (by decide)
     (sampleTransform 0) { x := 10, y := 4 } (LabelType.other 0) (sampleOptions false)
     Anchor.center rfl [(false, 1 / 10), (false, 1 / 2), (false, 0)] hfs⟩

/-! ## State sets as bit masks: `canOcclude` and `visibleState` -/

theorem and_two_pow_ne_zero (x k : Nat) : x &&& 2 ^ k ≠ 0 ↔ x.testBit k = true := by
  rw [Nat.and_two_pow]
  cases x.testBit k <;> simp

theorem stateBit_injective : Function.Injective stateBit := by
  intro a b h
  cases a <;> cases b <;> simp [stateBit] at h <;> rfl

theorem stateFlag_bitFlags : BitFlags stateFlag :=
  ⟨stateBit, stateBit_injective, fun s => by cases s <;> rfl⟩

theorem visibleState_eq_true_iff {F E : Type} (flag : State → Nat) (hf : BitFlags flag)
    (l : Label F E) :
    l.visibleState flag = true ↔
      l.m_state = State.visible ∨ l.m_state = State.fading_in ∨
      l.m_state = State.fading_out ∨ l.m_state = State.skip_transition := by
  obtain ⟨bit, hinj, hflag⟩ := hf
  simp only [Label.visibleState, hflag, bne_iff_ne, and_two_pow_ne_zero, Nat.testBit_or,
    Nat.testBit_two_pow, Bool.or_eq_true, decide_eq_true_eq, hinj.eq_iff]
  constructor
  · rintro (((h | h) | h) | h) <;> simp [← h]
  · rintro (h | h | h | h) <;> simp [h]

theorem canOcclude_eq_true_iff {F E : Type} (flag : State → Nat) (hf : BitFlags flag)
    (l : Label F E) :
    l.canOcclude flag = true ↔
      l.m_options.collide = true ∧ l.m_type ≠ LabelType.debug ∧
      l.m_state ≠ State.fading_out := by
  obtain ⟨bit, hinj, hflag⟩ := hf
  simp only [Label.canOcclude, hflag]
  cases hc : l.m_options.collide
  · simp
  · simp only [Bool.not_true, Bool.false_eq_true, if_false, Bool.and_eq_true, bne_iff_ne,
      and_two_pow_ne_zero, Nat.testBit_or, Nat.testBit_two_pow, Bool.or_eq_true,
      decide_eq_true_eq, hinj.eq_iff, Bool.not_eq_true', decide_eq_false_iff_not, true_and]
    constructor
    · rintro ⟨h, ht⟩
      refine ⟨ht, ?_⟩
      rcases h with (((((h | h) | h) | h) | h) | h) | h <;> simp [← h]
    · rintro ⟨ht, hs⟩
      refine ⟨?_, ht⟩
      cases hst : l.m_state <;> simp_all

/-- C8. `canOcclude()` returns true if and only if the label has collision enabled, its kind
is not debug, and its state is one of `visible`, `wait_occ`, `skip_transition`, `fading_in`,
`sleep`, `out_of_screen`, `dead`; that set is every state other than `fading_out`. The
enumerators are taken to be distinct single-bit flags. -/
theorem canOcclude_iff {F E : Type} (flag : State → Nat) (hf : BitFlags flag) (l : Label F E) :
    (l.canOcclude flag = true ↔
      l.m_options.collide = true ∧ l.m_type ≠ LabelType.debug ∧
      l.m_state ∈ [State.visible, State.wait_occ, State.skip_transition, State.fading_in,
                   State.sleep, State.out_of_screen, State.dead]) ∧
    (l.m_state ∈ [State.visible, State.wait_occ, State.skip_transition, State.fading_in,
                  State.sleep, State.out_of_screen, State.dead] ↔
      l.m_state ≠ State.fading_out) := by
  have hset : l.m_state ∈ [State.visible, State.wait_occ, State.skip_transition,
      State.fading_in, State.sleep, State.out_of_screen, State.dead] ↔
      l.m_state ≠ State.fading_out := by
    cases l.m_state <;> simp
  exact ⟨by rw [canOcclude_eq_true_iff flag hf l, hset], hset⟩

/-- Witness for C8: with the flags 1, 2, 4, ..., 128, a collidable sleeping label of a normal
kind can occlude. -/
theorem canOcclude_iff_witness :
    BitFlags stateFlag ∧ (sampleLabel State.sleep 0 false).canOcclude stateFlag = true :=
  ⟨stateFlag_bitFlags,
   ((canOcclude_iff stateFlag stateFlag_bitFlags (sampleLabel State.sleep 0 false)).1).2
     ⟨rfl, by decide, by decide⟩⟩

/-- C9. `visibleState()` returns true if and only if the state is one of `visible`,
`fading_in`, `fading_out`, `skip_transition`; it is false for `wait_occ`, `sleep`,
`out_of_screen` and `dead`. The enumerators are taken to be distinct single-bit flags. -/
theorem visibleState_iff {F E : Type} (flag : State → Nat) (hf : BitFlags flag)
    (l : Label F E) :
    (l.visibleState flag = true ↔
      l.m_state ∈ [State.visible, State.fading_in, State.fading_out,
                   State.skip_transition]) ∧
    (l.m_state ∈ [State.wait_occ, State.sleep, State.out_of_screen, State.dead] →
      l.visibleState flag = false) := by
  have hiff := visibleState_eq_true_iff flag hf l
  constructor
  · rw [hiff]
    simp
  · intro hm
    rw [← Bool.not_eq_true, hiff]
    cases hs : l.m_state <;> simp_all

/-- Witness for C9: with the flags 1, 2, 4, ..., 128, a label in `out_of_screen` is not in a
visible state. -/
theorem visibleState_iff_witness :
    BitFlags stateFlag ∧
    (sampleLabel State.out_of_screen 0 false).visibleState stateFlag = false :=
  ⟨stateFlag_bitFlags,
   (visibleState_iff stateFlag stateFlag_bitFlags (sampleLabel State.out_of_screen 0 false)).2
     (by decide)⟩

/-! ## The transform pass -/

/-- C10. Transform pass with an invalid projection: on a label whose state is not `dead`, when
`updateScreenTransform` reports `ruleSatisfied == false`, `update()` returns false and leaves
the label in state `sleep` with alpha 0, so that `visibleState()` is false afterwards,
whatever the previous state. The enumerators are taken to be distinct single-bit flags. -/
theorem update_invalid_projection {F E : Type} (flag : State → Nat) (hf : BitFlags flag)
    (ust : Label F E → Bool → Bool × Vec2) (l : Label F E) (allLabels : Bool)
    (hs : l.m_state ≠ State.dead)
    (hr : (ust { l with m_occludedLastFrame := l.m_occluded, m_occluded := false }
            (!allLabels)).1 = false) :
    (l.update ust allLabels).1 = false ∧
    (l.update ust allLabels).2.m_state = State.sleep ∧
    (l.update ust allLabels).2.alpha = 0 ∧
    (l.update ust allLabels).2.visibleState flag = false := by
  have h1 : (l.update ust allLabels).1 = false := by
    simp [Label.update, hs, hr]
  have h2 : (l.update ust allLabels).2.m_state = State.sleep := by
    simp [Label.update, hs, hr, Label.enterState, Label.setAlpha]
  have h3 : (l.update ust allLabels).2.alpha = 0 := by
    simp [Label.update, hs, hr, Label.enterState, Label.setAlpha, Label.alpha, CLAMP_zero]
  refine ⟨h1, h2, h3, ?_⟩
  rw [← Bool.not_eq_true, visibleState_eq_true_iff flag hf, h2]
  simp

/-- Witness for C10: a visible label at alpha 1 whose projection is reported invalid. -/
theorem update_invalid_projection_witness :
    BitFlags stateFlag ∧
    (sampleLabel State.visible 1 false).m_state ≠ State.dead ∧
    ((sampleLabel State.visible 1 false).update (sampleUst false) false).1 = false ∧
    ((sampleLabel State.visible 1 false).update (sampleUst false) false).2.m_state
      = State.sleep ∧
    ((sampleLabel State.visible 1 false).update (sampleUst false) false).2.alpha = 0 ∧
    ((sampleLabel State.visible 1 false).update (sampleUst false) false).2.visibleState
      stateFlag = false :=
  ⟨stateFlag_bitFlags, by decide,
   update_invalid_projection stateFlag stateFlag_bitFlags (sampleUst false)
     (sampleLabel State.visible 1 false) false (by decide) rfl⟩

/-! ## `skipTransitions` and `resetState` -/

/-- C11. `skipTransitions()`: on a label that is not dead, whatever its state and alpha, the
state becomes `skip_transition` and the alpha 0; on a dead label the call changes nothing. -/
theorem skipTransitions_spec {F E : Type} (l : Label F E) :
    (l.m_state ≠ State.dead →
      l.skipTransitions.m_state = State.skip_transition ∧ l.skipTransitions.alpha = 0) ∧
    (l.m_state = State.dead → l.skipTransitions = l) := by
  constructor
  · intro h
    simp [Label.skipTransitions, Label.enterState, h, Label.setAlpha, Label.alpha, CLAMP_zero]
  · intro h
    simp [Label.skipTransitions, Label.enterState, h]

/-- Witness for C11: a label fading in at alpha 7/10. -/
theorem skipTransitions_spec_witness :
    (sampleLabel State.fading_in (7 / 10) false).m_state ≠ State.dead ∧
    (sampleLabel State.fading_in (7 / 10) false).skipTransitions.m_state
      = State.skip_transition ∧
    (sampleLabel State.fading_in (7 / 10) false).skipTransitions.alpha = 0 :=
  ⟨by decide,
   (skipTransitions_spec (sampleLabel State.fading_in (7 / 10) false)).1 (by decide)⟩

/-- C12. `resetState()`: on a dead label no member changes; on every other label both
occlusion flags become false and the label is in state `wait_occ` with alpha 0. -/
theorem resetState_spec {F E : Type} (l : Label F E) :
    (l.m_state = State.dead → l.resetState = l) ∧
    (l.m_state ≠ State.dead →
      l.resetState.m_occluded = false ∧ l.resetState.m_occludedLastFrame = false ∧
      l.resetState.m_state = State.wait_occ ∧ l.resetState.alpha = 0) := by
  constructor
  · intro h
    simp [Label.resetState, h]
  · intro h
    simp [Label.resetState, Label.enterState, h, Label.setAlpha, Label.alpha, CLAMP_zero]

/-- Witness for C12: a dead label with both occlusion flags as they were. -/
theorem resetState_spec_witness :
    (sampleLabel State.dead (1 / 3) true).m_state = State.dead ∧
    (sampleLabel State.dead (1 / 3) true).resetState = sampleLabel State.dead (1 / 3) true :=
  ⟨rfl, (resetState_spec (sampleLabel State.dead (1 / 3) true)).1 rfl⟩

/-! ## The return value of `evalState` -/

/-- Counterexample for C13: a label in `skip_transition` that is not occluded changes state
(to `visible`), yet `evalState` returns false. -/
theorem evalState_return_counterexample :
    (sampleLabel State.skip_transition 0 false).m_state = State.skip_transition ∧
    ((sampleLabel State.skip_transition 0 false).evalState linearApi (1 / 10)).2.m_state
      = State.visible ∧
    ((sampleLabel State.skip_transition 0 false).evalState linearApi (1 / 10)).2.m_state
      ≠ (sampleLabel State.skip_transition 0 false).m_state ∧
    ((sampleLabel State.skip_transition 0 false).evalState linearApi (1 / 10)).1 = false := by
  refine ⟨rfl, ?_, ?_, ?_⟩ <;> decide

/-- C13, amended. `evalState` returns true exactly when the call advanced the fade effect
(state `fading_in` and not occluded, or state `fading_out` and occluded, whatever the state
afterwards) or moved the label into `fading_in` or `fading_out` from a different state. It
returns false in every other case, also when the call moved the label into `sleep` or
`visible`. -/
theorem evalState_return_iff {F E : Type} (api : FadeEffectApi F E) (l : Label F E) (dt : ℚ) :
    (l.evalState api dt).1 = true ↔
      ((l.m_state = State.fading_in ∧ l.m_occluded = false) ∨
       (l.m_state = State.fading_out ∧ l.m_occluded = true)) ∨
      ((l.evalState api dt).2.m_state ≠ l.m_state ∧
       ((l.evalState api dt).2.m_state = State.fading_in ∨
        (l.evalState api dt).2.m_state = State.fading_out)) := by
  cases hs : l.m_state <;> cases ho : l.m_occluded <;>
    simp [Label.evalState, hs, ho, Label.enterState, Label.setAlpha] <;>
    split_ifs <;> simp [hs]

/-! ## Occlusion flags in the transform pass -/

/-- C14. For every label, dead or not, and every input, `occludedLastFrame` after `update()`
is the value `occluded` had before the call. -/
theorem update_occludedLastFrame {F E : Type} (ust : Label F E → Bool → Bool × Vec2)
    (l : Label F E) (allLabels : Bool) :
    (l.update ust allLabels).2.m_occludedLastFrame = l.m_occluded := by
  unfold Label.update
  simp only []
  split_ifs <;> simp [Label.enterState, Label.setAlpha] <;> split_ifs <;> rfl

/-- Counterexample for C15: on a dead label whose `occluded` flag is set, `update()` with
`allLabels == false` returns false but changes both occlusion flags. -/
theorem update_dead_noop_counterexample :
    (sampleLabel State.dead 0 true).m_state = State.dead ∧
    ((sampleLabel State.dead 0 true).update (sampleUst true) false).1 = false ∧
    (sampleLabel State.dead 0 true).m_occluded = true ∧
    ((sampleLabel State.dead 0 true).update (sampleUst true) false).2.m_occluded = false ∧
    (sampleLabel State.dead 0 true).m_occludedLastFrame = false ∧
    ((sampleLabel State.dead 0 true).update (sampleUst true) false).2.m_occludedLastFrame
      = true ∧
    ((sampleLabel State.dead 0 true).update (sampleUst true) false).2
      ≠ sampleLabel State.dead 0 true := by
  refine ⟨rfl, rfl, rfl, rfl, rfl, rfl, ?_⟩
  intro h
  have h2 := congrArg Label.m_occluded h
  exact absurd h2 (by decide)

/-- C15, amended. On a dead label, `update()` with `allLabels == false` returns false without
calling `updateScreenTransform`, and leaves every member as it was except the two occlusion
flags, which are rotated as for every label: `occludedLastFrame` takes the value `occluded`
had, and `occluded` becomes false. -/
theorem update_dead_skipped {F E : Type} (ust : Label F E → Bool → Bool × Vec2)
    (l : Label F E) (h : l.m_state = State.dead) :
    l.update ust false
      = (false, { l with m_occludedLastFrame := l.m_occluded, m_occluded := false }) := by
  simp [Label.update, h]

/-- Witness for C15, amended: a dead label whose `occluded` flag is set. -/
theorem update_dead_skipped_witness :
    (sampleLabel State.dead 0 true).m_state = State.dead ∧
    (sampleLabel State.dead 0 true).update (sampleUst true) false
      = (false, { sampleLabel State.dead 0 true with
                  m_occludedLastFrame := true, m_occluded := false }) :=
  ⟨rfl, update_dead_skipped (sampleUst true) (sampleLabel State.dead 0 true) rfl⟩

/-! ## The first frames of a fade-in -/

/-- Counterexample for C16: a label in `wait_occ` with alpha 0 and show duration 1/2, after one
`evalState` with `occluded == false` and `dt == 1/10`, is in `fading_in` with alpha 0, which
is not strictly greater than 0. -/
theorem first_frame_alpha_counterexample :
    (sampleLabel State.wait_occ 0 false).m_options.showTransition.time = 1 / 2 ∧
    ((sampleLabel State.wait_occ 0 false).evalState linearApi (1 / 10)).2.m_state
      = State.fading_in ∧
    ((sampleLabel State.wait_occ 0 false).evalState linearApi (1 / 10)).2.alpha = 0 ∧
    ¬ (0 < ((sampleLabel State.wait_occ 0 false).evalState linearApi (1 / 10)).2.alpha) := by
  have ha : ((sampleLabel State.wait_occ 0 false).evalState linearApi (1 / 10)).2.alpha = 0 := by
    simp [sampleLabel, Label.evalState, Label.enterState, Label.setAlpha, Label.alpha,
      CLAMP_zero]
  refine ⟨rfl, by decide, ha, ?_⟩
  rw [ha]
  exact lt_irrefl 0

/-- C16, amended. For a label in `wait_occ`, one `evalState` call with `occluded == false`
leaves the state `fading_in` and the alpha 0: the call only starts the fade-in effect, built
from `showTransition` with no elapsed time, and does not advance it by `dt`. The value of the
effect is assigned by the next call: a second `evalState` with `occluded == false` and `dt2`
sets alpha to the clamped value returned by the first `update(dt2)` of that fresh effect, and
the state stays `fading_in` when the effect is not finished after it. -/
theorem first_frame_starts_fade {F E : Type} (api : FadeEffectApi F E) (l : Label F E)
    (dt : ℚ) (hs : l.m_state = State.wait_occ) (ho : l.m_occluded = false) :
    (l.evalState api dt).2.m_state = State.fading_in ∧
    (l.evalState api dt).2.alpha = 0 ∧
    (l.evalState api dt).2.m_fade
      = api.make true l.m_options.showTransition.ease l.m_options.showTransition.time ∧
    (∀ dt2 : ℚ,
      api.isFinished (api.update (api.make true l.m_options.showTransition.ease
        l.m_options.showTransition.time) dt2).2 = false →
      (({ (l.evalState api dt).2 with m_occluded := false }).evalState api dt2).2.m_state
        = State.fading_in ∧
      (({ (l.evalState api dt).2 with m_occluded := false }).evalState api dt2).2.alpha
        = CLAMP (api.update (api.make true l.m_options.showTransition.ease
            l.m_options.showTransition.time) dt2).1 0 1) := by
  refine ⟨?_, ?_, ?_, ?_⟩
  · simp [Label.evalState, hs, ho, Label.enterState, Label.setAlpha]
  · simp [Label.evalState, hs, ho, Label.enterState, Label.setAlpha, Label.alpha, CLAMP_zero]
  · simp [Label.evalState, hs, ho, Label.enterState, Label.setAlpha]
  · intro dt2 hfin
    simp [Label.evalState, hs, ho, Label.enterState, Label.setAlpha, Label.alpha, hfin]

/-- Witness for C16, amended: the label of the scenario, show duration 1/2 and `dt` 1/10. -/
theorem first_frame_starts_fade_witness :
    (sampleLabel State.wait_occ 0 false).m_state = State.wait_occ ∧
    (sampleLabel State.wait_occ 0 false).m_occluded = false ∧
    ((sampleLabel State.wait_occ 0 false).evalState linearApi (1 / 10)).2.m_state
      = State.fading_in ∧
    ((sampleLabel State.wait_occ 0 false).evalState linearApi (1 / 10)).2.alpha = 0 :=
  ⟨rfl, rfl,
   (first_frame_starts_fade linearApi (sampleLabel State.wait_occ 0 false) (1 / 10)
      rfl rfl).1,
   (first_frame_starts_fade linearApi (sampleLabel State.wait_occ 0 false) (1 / 10)
      rfl rfl).2.1⟩

/-! ## Completion of a fade-in with the spec-modelled fade effect -/

theorem fadingIn_step {E : Type} (easeFn : E → ℚ → ℚ) (dflt : FadeEffect E)
    (l : Label (FadeEffect E) E) (dt : ℚ) (hs : l.m_state = State.fading_in) :
    (l.m_fade.duration ≤ l.m_fade.elapsed + dt →
      (({ l with m_occluded := false }).evalState (FadeEffect.api easeFn dflt) dt).2.m_state
        = State.visible ∧
      (({ l with m_occluded := false }).evalState (FadeEffect.api easeFn dflt) dt).2.alpha
        = 1) ∧
    (¬ l.m_fade.duration ≤ l.m_fade.elapsed + dt →
      (({ l with m_occluded := false }).evalState (FadeEffect.api easeFn dflt) dt).2.m_state
        = State.fading_in ∧
      (({ l with m_occluded := false }).evalState
          (FadeEffect.api easeFn dflt) dt).2.m_fade.duration = l.m_fade.duration ∧
      (({ l with m_occluded := false }).evalState
          (FadeEffect.api easeFn dflt) dt).2.m_fade.elapsed = l.m_fade.elapsed + dt) := by
  constructor
  · intro h
    simp [Label.evalState, hs, FadeEffect.api, FadeEffect.update, FadeEffect.isFinished, h,
      Label.enterState, Label.setAlpha, Label.alpha, CLAMP_one]
  · intro h
    simp [Label.evalState, hs, FadeEffect.api, FadeEffect.update, FadeEffect.isFinished, h,
      Label.setAlpha]

theorem runFrames_fadingIn_completes {E : Type} (easeFn : E → ℚ → ℚ) (dflt : FadeEffect E)
    (fs : List (Bool × ℚ)) :
    ∀ l : Label (FadeEffect E) E, l.m_state = State.fading_in →
      (∀ f ∈ fs, f.1 = false ∧ 0 < f.2) → fs ≠ [] →
      l.m_fade.duration ≤ l.m_fade.elapsed + (fs.map Prod.snd).sum →
      (runFrames (FadeEffect.api easeFn dflt) l fs).m_state = State.visible ∧
      (runFrames (FadeEffect.api easeFn dflt) l fs).alpha = 1 := by
  induction fs with
  | nil => intro l _ _ hne; exact absurd rfl hne
  | cons f fs ih =>
    intro l hs hfs _ hsum
    obtain ⟨b, dt⟩ := f
    have hb : b = false := (hfs (b, dt) (List.mem_cons_self _ _)).1
    subst hb
    have hrest : ∀ g ∈ fs, g.1 = false ∧ 0 < g.2 :=
      fun g hg => hfs g (List.mem_cons_of_mem _ hg)
    have hstep := fadingIn_step easeFn dflt l dt hs
    simp only [runFrames, List.foldl_cons]
    by_cases hd : l.m_fade.duration ≤ l.m_fade.elapsed + dt
    · have h1 := hstep.1 hd
      have hv := runFrames_visible_not_occluded (FadeEffect.api easeFn dflt) fs
        (fun g hg => (hrest g hg).1) _ h1.1
      simp only [runFrames] at hv
      exact ⟨hv.1, hv.2.trans h1.2⟩
    · have h2 := hstep.2 hd
      have hne : fs ≠ [] := by
        intro hnil
        subst hnil
        simp at hsum
        exact hd hsum
      have hsum2 : (({ l with m_occluded := false } : Label (FadeEffect E) E).evalState
            (FadeEffect.api easeFn dflt) dt).2.m_fade.duration
          ≤ (({ l with m_occluded := false } : Label (FadeEffect E) E).evalState
            (FadeEffect.api easeFn dflt) dt).2.m_fade.elapsed + (fs.map Prod.snd).sum := by
        rw [h2.2.1, h2.2.2]
        simp only [List.map_cons, List.sum_cons] at hsum
        linarith
      have hr := ih _ h2.1 hrest hne hsum2
      simp only [runFrames] at hr
      exact hr

/-- Counterexample for C17: a freshly constructed collidable label with show duration 1/2,
after one `evalState` with `occluded == false` and `dt == 1/2` (cumulative sum 1/2), is in
`fading_in` with alpha 0, not in `visible`. -/
theorem fade_in_completion_counterexample :
    (sampleOptions true).showTransition.time = 1 / 2 ∧
    (∀ f ∈ [((false : Bool), (1 / 2 : ℚ))], f.1 = false ∧ 0 < f.2) ∧
    (1 / 2 : ℚ) ≤ ([((false : Bool), (1 / 2 : ℚ))].map Prod.snd).sum ∧
    (runFrames linearApi
      (Label.construct linearApi State.wait_occ (sampleTransform 0) { x := 10, y := 4 }
        (LabelType.other 0) (sampleOptions true) Anchor.center)
      [(false, 1 / 2)]).m_state = State.fading_in ∧
    (runFrames linearApi
      (Label.construct linearApi State.wait_occ (sampleTransform 0) { x := 10, y := 4 }
        (LabelType.other 0) (sampleOptions true) Anchor.center)
      [(false, 1 / 2)]).m_state ≠ State.visible := by
  refine ⟨rfl, ?_, ?_, by decide, by decide⟩
  · intro f hf
    simp only [List.mem_singleton] at hf
    subst hf
    exact ⟨rfl, by norm_num⟩
  · simp

/-- C17, amended. For a freshly constructed collidable label with show duration 1/2 and the
fade effect of the spec (elapsed time accumulates, finished when elapsed ≥ duration), the
first `evalState` with `occluded == false` only starts the fade and its `dt` does not count.
For every sequence of further `evalState` calls with `occluded == false` throughout and
positive `dt` values whose sum is at least 1/2, the state after the sequence is `visible` and
the alpha is 1. -/
theorem fade_in_completes {E : Type} (easeFn : E → ℚ → ℚ) (dflt : FadeEffect E)
    (m_state0 : State) (_transform : Transform) (_size : Vec2) (_type : LabelType)
    (_options : Options E) (_anchor : Anchor)
    (hc : _options.collide = true) (hty : _type ≠ LabelType.debug)
    (ht : _options.showTransition.time = 1 / 2)
    (dt0 : ℚ) (fs : List (Bool × ℚ)) (hfs : ∀ f ∈ fs, f.1 = false ∧ 0 < f.2)
    (hsum : 1 / 2 ≤ (fs.map Prod.snd).sum) :
    (runFrames (FadeEffect.api easeFn dflt)
      (Label.construct (FadeEffect.api easeFn dflt) m_state0 _transform _size _type _options
        _anchor)
      ((false, dt0) :: fs)).m_state = State.visible ∧
    (runFrames (FadeEffect.api easeFn dflt)
      (Label.construct (FadeEffect.api easeFn dflt) m_state0 _transform _size _type _options
        _anchor)
      ((false, dt0) :: fs)).alpha = 1 := by
  have hne : fs ≠ [] := by
    intro hnil
    subst hnil
    simp at hsum
    linarith
  have hr := runFrames_fadingIn_completes easeFn dflt fs
    (({ (Label.construct (FadeEffect.api easeFn dflt) m_state0 _transform _size _type
          _options _anchor) with m_occluded := false } : Label (FadeEffect E) E).evalState
        (FadeEffect.api easeFn dflt) dt0).2
    (by simp [Label.construct, hc, hty, Label.evalState, Label.enterState, Label.setAlpha])
    hfs hne
    (by
      simp [Label.construct, hc, hty, Label.evalState, Label.enterState, Label.setAlpha,
        FadeEffect.api, FadeEffect.make, ht]
      linarith)
  simp only [runFrames, List.foldl_cons] at hr ⊢
  exact hr

/-- Witness for C17, amended: after the frame that starts the fade, frames of 3/10 and 1/5. -/
theorem fade_in_completes_witness :
    (sampleOptions true).collide = true ∧
    LabelType.other 0 ≠ LabelType.debug ∧
    (sampleOptions true).showTransition.time = 1 / 2 ∧
    (∀ f ∈ [((false : Bool), (3 / 10 : ℚ)), (false, 1 / 5)], f.1 = false ∧ 0 < f.2) ∧
    (1 / 2 : ℚ) ≤ ([((false : Bool), (3 / 10 : ℚ)), (false, 1 / 5)].map Prod.snd).sum ∧
    (runFrames (FadeEffect.api (fun _ t => t) (FadeEffect.make true () (1 / 2)))
      (Label.construct (FadeEffect.api (fun _ t => t) (FadeEffect.make true () (1 / 2)))
        State.wait_occ (sampleTransform 0) { x := 10, y := 4 } (LabelType.other 0)
        (sampleOptions true) Anchor.center)
      ((false, 1 / 10) :: [(false, 3 / 10), (false, 1 / 5)])).m_state = State.visible ∧
    (runFrames (FadeEffect.api (fun _ t => t) (FadeEffect.make true () (1 / 2)))
      (Label.construct (FadeEffect.api (fun _ t => t) (FadeEffect.make true () (1 / 2)))
        State.wait_occ (sampleTransform 0) { x := 10, y := 4 } (LabelType.other 0)
        (sampleOptions true) Anchor.center)
      ((false, 1 / 10) :: [(false, 3 / 10), (false, 1 / 5)])).alpha = 1 :=
  have hfs : ∀ f ∈ [((false : Bool), (3 / 10 : ℚ)), (false, 1 / 5)],
      f.1 = false ∧ 0 < f.2 := by
    intro f hf
    simp only [List.mem_cons, List.mem_singleton, List.not_mem_nil, or_false] at hf
    rcases hf with hf | hf <;> subst hf <;> exact ⟨rfl, by norm_num⟩
  have hsum : (1 / 2 : ℚ) ≤
      ([((false : Bool), (3 / 10 : ℚ)), (false, 1 / 5)].map Prod.snd).sum := by
    simp
    norm_num
  ⟨rfl, by decide, rfl, hfs, hsum,
   fade_in_completes (fun _ t => t) (FadeEffect.make true () (1 / 2)) State.wait_occ
     (sampleTransform 0) { x := 10, y := 4 } (LabelType.other 0) (sampleOptions true)
     Anchor.center rfl (by decide) rfl (1 / 10) [(false, 3 / 10), (false, 1 / 5)] hfs hsum⟩

/-! ## The fade effect across transitions -/

/-- C18, the code at the failing input. A label in `fading_out` at alpha 3/5 that holds a
fade-out effect (duration 1/4, elapsed 1/10) and is not occluded moves to `fading_in`, but its
fade effect is not replaced: it is still the fade-out effect with its elapsed time, not a new
fade-in effect built from `showTransition`. With the fade effect of the spec, the next
`evalState` therefore lowers the alpha of the label, now in `fading_in`, from 3/5 to 2/5. -/
theorem fading_out_resume_keeps_fade :
    sampleFadingOut.m_state = State.fading_out ∧
    sampleFadingOut.m_occluded = false ∧
    (sampleFadingOut.evalState linearApi (1 / 20)).2.m_state = State.fading_in ∧
    (sampleFadingOut.evalState linearApi (1 / 20)).2.m_fade
      = { fadeIn := false, ease := (), duration := 1 / 4, elapsed := 1 / 10 } ∧
    (sampleFadingOut.evalState linearApi (1 / 20)).2.m_fade
      ≠ linearApi.make true sampleFadingOut.m_options.showTransition.ease
          sampleFadingOut.m_options.showTransition.time ∧
    (sampleFadingOut.evalState linearApi (1 / 20)).2.alpha = 3 / 5 ∧
    (runFrames linearApi sampleFadingOut [(false, 1 / 20), (false, 1 / 20)]).m_state
      = State.fading_in ∧
    (runFrames linearApi sampleFadingOut [(false, 1 / 20), (false, 1 / 20)]).alpha = 2 / 5 := by
  have hfade : (sampleFadingOut.evalState linearApi (1 / 20)).2.m_fade
      = { fadeIn := false, ease := (), duration := 1 / 4, elapsed := 1 / 10 } := by
    simp [sampleFadingOut, sampleLabel, Label.evalState, Label.enterState, Label.setAlpha]
  refine ⟨rfl, rfl, by decide, hfade, ?_, ?_, ?_, ?_⟩
  · rw [hfade]
    intro h
    have h2 := congrArg FadeEffect.fadeIn h
    simp [linearApi, FadeEffect.api, FadeEffect.make] at h2
  · simp [sampleFadingOut, sampleLabel, sampleTransform, Label.evalState, Label.enterState,
      Label.setAlpha, Label.alpha, CLAMP]
    norm_num
  · simp [runFrames, sampleFadingOut, sampleLabel, sampleTransform, Label.evalState,
      Label.enterState, Label.setAlpha, linearApi, FadeEffect.api, FadeEffect.update,
      FadeEffect.isFinished, FadeEffect.make]
    norm_num
  · simp [runFrames, sampleFadingOut, sampleLabel, sampleTransform, Label.evalState,
      Label.enterState, Label.setAlpha, Label.alpha, linearApi, FadeEffect.api,
      FadeEffect.update, FadeEffect.isFinished, FadeEffect.make, CLAMP]
    norm_num

/-! ## Attaching a label to a parent -/

theorem sampleApplyAnchor_placesOnly : PlacesOnly sampleApplyAnchor := by
  intro l d o a
  exact ⟨rfl, rfl, rfl, rfl, rfl⟩

/-- C19. Priority inheritance: after `child.setParent(parent, true)` the priority of the child
is the priority of the parent plus 1/2, whatever the child had before; the offset of the child
is its previous offset plus the offset of the parent, component by component; the state, the
alpha and the two occlusion flags of the child are unchanged. The virtual `applyAnchor` is
taken to leave the options, state, alpha and occlusion flags of the label alone. -/
theorem setParent_inherits_priority {F E : Type} (anchorDirection : Anchor → Vec2)
    (applyAnchor : Label F E → Vec2 → Vec2 → Anchor → Label F E)
    (hp : PlacesOnly applyAnchor) (child parent : Label F E) (addr : Nat) :
    (child.setParent anchorDirection applyAnchor addr parent true).m_options.priority
      = parent.m_options.priority + 1 / 2 ∧
    (child.setParent anchorDirection applyAnchor addr parent true).m_options.offset.x
      = child.m_options.offset.x + parent.m_options.offset.x ∧
    (child.setParent anchorDirection applyAnchor addr parent true).m_options.offset.y
      = child.m_options.offset.y + parent.m_options.offset.y ∧
    (child.setParent anchorDirection applyAnchor addr parent true).m_state = child.m_state ∧
    (child.setParent anchorDirection applyAnchor addr parent true).alpha = child.alpha ∧
    (child.setParent anchorDirection applyAnchor addr parent true).m_occluded
      = child.m_occluded ∧
    (child.setParent anchorDirection applyAnchor addr parent true).m_occludedLastFrame
      = child.m_occludedLastFrame := by
  have ho : ∀ (d o : Vec2) (a : Anchor),
      (applyAnchor { child with m_parent := some addr } d o a).m_options = child.m_options :=
    fun d o a => (hp _ d o a).1
  have hs : ∀ (d o : Vec2) (a : Anchor),
      (applyAnchor { child with m_parent := some addr } d o a).m_state = child.m_state :=
    fun d o a => (hp _ d o a).2.1
  have ha : ∀ (d o : Vec2) (a : Anchor),
      (applyAnchor { child with m_parent := some addr } d o a).m_transform.state.alpha
        = child.m_transform.state.alpha :=
    fun d o a => (hp _ d o a).2.2.1
  have hocc : ∀ (d o : Vec2) (a : Anchor),
      (applyAnchor { child with m_parent := some addr } d o a).m_occluded
        = child.m_occluded :=
    fun d o a => (hp _ d o a).2.2.2.1
  have hlast : ∀ (d o : Vec2) (a : Anchor),
      (applyAnchor { child with m_parent := some addr } d o a).m_occludedLastFrame
        = child.m_occludedLastFrame :=
    fun d o a => (hp _ d o a).2.2.2.2
  refine ⟨?_, ?_, ?_, ?_, ?_, ?_, ?_⟩
  · simp [Label.setParent]
  · simp [Label.setParent, Vec2.add, ho]
  · simp [Label.setParent, Vec2.add, ho]
  · simp [Label.setParent, hs]
  · simp [Label.setParent, Label.alpha, ha]
  · simp [Label.setParent, hocc]
  · simp [Label.setParent, hlast]

/-- Witness for C19: a child fading in at alpha 2/5 attached to a parent of priority 3 and
offset (2, 5). -/
theorem setParent_inherits_priority_witness :
    PlacesOnly sampleApplyAnchor ∧
    ((sampleLabel State.fading_in (2 / 5) true).setParent sampleAnchorDirection
        sampleApplyAnchor 7 sampleParent true).m_options.priority
      = sampleParent.m_options.priority + 1 / 2 ∧
    ((sampleLabel State.fading_in (2 / 5) true).setParent sampleAnchorDirection
        sampleApplyAnchor 7 sampleParent true).m_state
      = (sampleLabel State.fading_in (2 / 5) true).m_state :=
  ⟨sampleApplyAnchor_placesOnly,
   (setParent_inherits_priority sampleAnchorDirection sampleApplyAnchor
      sampleApplyAnchor_placesOnly (sampleLabel State.fading_in (2 / 5) true) sampleParent
      7).1,
   (setParent_inherits_priority sampleAnchorDirection sampleApplyAnchor
      sampleApplyAnchor_placesOnly (sampleLabel State.fading_in (2 / 5) true) sampleParent
      7).2.2.2.1⟩

/-! ## State and alpha never diverge -/

namespace Label

variable {F E : Type}

theorem enterState_coherent (l : Label F E) (s : State) (a : ℚ) (h : Coherent l)
    (hv : s = State.visible → a = 1)
    (hz : s = State.sleep ∨ s = State.wait_occ ∨ s = State.skip_transition → a = 0) :
    Coherent (l.enterState s a) := by
  by_cases hd : l.m_state = State.dead
  · rw [enterState_of_dead l s a hd]
    exact h
  · constructor
    · intro hs
      rw [enterState_state l s a hd] at hs
      rw [enterState_alpha l s a hd, hv hs, CLAMP_one]
    · intro hs
      rw [enterState_state l s a hd] at hs
      rw [enterState_alpha l s a hd, hz hs, CLAMP_zero]

theorem evalState_coherent (api : FadeEffectApi F E) (l : Label F E) (dt : ℚ)
    (h : Coherent l) : Coherent (l.evalState api dt).2 := by
  obtain ⟨h1, h2⟩ := h
  simp only [alpha] at h1 h2
  cases hs : l.m_state <;>
    simp only [Coherent, evalState, hs, enterState, setAlpha, alpha] <;>
    (try split_ifs) <;>
    simp_all [CLAMP_zero, CLAMP_one]

theorem update_coherent (ust : Label F E → Bool → Bool × Vec2) (l : Label F E)
    (allLabels : Bool) (h : Coherent l) : Coherent (l.update ust allLabels).2 := by
  unfold update
  simp only []
  split_ifs
  · exact h
  · exact enterState_coherent _ _ _ h (by simp) (by simp)
  · exact h
  · exact enterState_coherent _ _ _ h (by simp) (by simp)
  · exact h

end Label

theorem Call.run_coherent {F E : Type} (api : FadeEffectApi F E) (l : Label F E)
    (c : Call F E) (hc : c.isEnterState = false) (h : Coherent l) :
    Coherent (Call.run api l c) := by
  cases c with
  | update ust allLabels => exact Label.update_coherent ust l allLabels h
  | frame occluded dt => exact Label.evalState_coherent api _ dt h
  | skipTransitions => exact Label.enterState_coherent l _ _ h (by simp) (by simp)
  | resetState =>
    simp only [Call.run, Label.resetState]
    split_ifs
    · exact h
    · exact Label.enterState_coherent _ _ _ h (by simp) (by simp)
  | enterState s a => simp [Call.isEnterState] at hc

theorem runCalls_coherent {F E : Type} (api : FadeEffectApi F E) (cs : List (Call F E)) :
    ∀ l : Label F E, (∀ c ∈ cs, c.isEnterState = false) → Coherent l →
      Coherent (runCalls api l cs) := by
  induction cs with
  | nil => intro l _ h; exact h
  | cons c cs ih =>
    intro l hcs h
    exact ih (Call.run api l c) (fun d hd => hcs d (List.mem_cons_of_mem c hd))
      (Call.run_coherent api l c (hcs c (List.mem_cons_self c cs)) h)

theorem construct_coherent {F E : Type} (api : FadeEffectApi F E) (m_state0 : State)
    (_transform : Transform) (_size : Vec2) (_type : LabelType) (_options : Options E)
    (_anchor : Anchor) :
    Coherent (Label.construct api m_state0 _transform _size _type _options _anchor) := by
  by_cases hc : (!_options.collide || decide (_type = LabelType.debug)) = true
  · by_cases h0 : m_state0 = State.dead
    · simp [Coherent, Label.construct, hc, Label.enterState, h0]
    · simp [Coherent, Label.construct, hc, Label.enterState, h0, Label.setAlpha, Label.alpha,
        CLAMP_one]
  · simp [Coherent, Label.construct, hc, Label.alpha]

/-- C20. Alpha and state never diverge: after the constructor and any sequence of `update`,
`evalState`, `skipTransitions` and `resetState` calls (no direct `enterState` call), a label in
state `visible` has alpha 1 and a label in state `sleep`, `wait_occ` or `skip_transition` has
alpha 0. -/
theorem state_alpha_never_diverge {F E : Type} (api : FadeEffectApi F E) (m_state0 : State)
    (_transform : Transform) (_size : Vec2) (_type : LabelType) (_options : Options E)
    (_anchor : Anchor) (cs : List (Call F E)) (hcs : ∀ c ∈ cs, c.isEnterState = false) :
    ((runCalls api (Label.construct api m_state0 _transform _size _type _options _anchor)
        cs).m_state = State.visible →
      (runCalls api (Label.construct api m_state0 _transform _size _type _options _anchor)
        cs).alpha = 1) ∧
    ((runCalls api (Label.construct api m_state0 _transform _size _type _options _anchor)
        cs).m_state = State.sleep ∨
     (runCalls api (Label.construct api m_state0 _transform _size _type _options _anchor)
        cs).m_state = State.wait_occ ∨
     (runCalls api (Label.construct api m_state0 _transform _size _type _options _anchor)
        cs).m_state = State.skip_transition →
      (runCalls api (Label.construct api m_state0 _transform _size _type _options _anchor)
        cs).alpha = 0) :=
  runCalls_coherent api cs _ hcs
    (construct_coherent api m_state0 _transform _size _type _options _anchor)

/-- Witness for C20: a collidable label after a frame, an invalid projection, a
`skipTransitions`, another frame and a `resetState`. -/
theorem state_alpha_never_diverge_witness :
    (∀ c ∈ [Call.frame false (1 / 10), Call.update (sampleUst false) false,
            Call.skipTransitions, Call.frame false 0, Call.resetState],
      Call.isEnterState c = false) ∧
    ((runCalls linearApi
        (Label.construct linearApi State.wait_occ (sampleTransform 7) { x := 10, y := 4 }
          (LabelType.other 0) (sampleOptions true) Anchor.center)
        [Call.frame false (1 / 10), Call.update (sampleUst false) false,
         Call.skipTransitions, Call.frame false 0, Call.resetState]).m_state
        = State.visible →
      (runCalls linearApi
        (Label.construct linearApi State.wait_occ (sampleTransform 7) { x := 10, y := 4 }
          (LabelType.other 0) (sampleOptions true) Anchor.center)
        [Call.frame false (1 / 10), Call.update (sampleUst false) false,
         Call.skipTransitions, Call.frame false 0, Call.resetState]).alpha = 1) :=
  have hcs : ∀ c ∈ [Call.frame false (1 / 10), Call.update (sampleUst false) false,
      Call.skipTransitions, Call.frame false 0, Call.resetState],
      Call.isEnterState c = false := by
    intro c hc
    simp only [List.mem_cons, List.mem_singleton, List.not_mem_nil, or_false] at hc
    rcases hc with hc | hc | hc | hc | hc <;> subst hc <;> rfl
  ⟨hcs,
   (state_alpha_never_diverge linearApi State.wait_occ (sampleTransform 7)
      { x := 10, y := 4 } (LabelType.other 0) (sampleOptions true) Anchor.center
      [Call.frame false (1 / 10), Call.update (sampleUst false) false,
       Call.skipTransitions, Call.frame false 0, Call.resetState] hcs).1⟩

/-! ## Calls that return false report no fade -/

/-- C21. No fade goes unreported: if `evalState` returns false, the state after the call is
neither `fading_in` nor `fading_out`, and the alpha after the call is 0, 1, or the alpha the
label had before the call. -/
theorem evalState_false_no_fade {F E : Type} (api : FadeEffectApi F E) (l : Label F E)
    (dt : ℚ) (h : (l.evalState api dt).1 = false) :
    (l.evalState api dt).2.m_state ≠ State.fading_in ∧
    (l.evalState api dt).2.m_state ≠ State.fading_out ∧
    ((l.evalState api dt).2.alpha = 0 ∨ (l.evalState api dt).2.alpha = 1 ∨
     (l.evalState api dt).2.alpha = l.alpha) := by
  cases hs : l.m_state <;> cases ho : l.m_occluded <;>
    simp [Label.evalState, hs, ho, Label.enterState, Label.setAlpha, Label.alpha, CLAMP_zero,
      CLAMP_one] at h ⊢ <;>
    split_ifs at h

/-- Witness for C21: a label fading in at alpha 7/10 that is occluded goes to `sleep` with
alpha 0, and `evalState` returns false. -/
theorem evalState_false_no_fade_witness :
    ((sampleLabel State.fading_in (7 / 10) true).evalState linearApi (1 / 10)).1 = false ∧
    ((sampleLabel State.fading_in (7 / 10) true).evalState linearApi (1 / 10)).2.m_state
      ≠ State.fading_in ∧
    ((sampleLabel State.fading_in (7 / 10) true).evalState linearApi (1 / 10)).2.m_state
      ≠ State.fading_out :=
  ⟨rfl,
   (evalState_false_no_fade linearApi (sampleLabel State.fading_in (7 / 10) true) (1 / 10)
      rfl).1,
   (evalState_false_no_fade linearApi (sampleLabel State.fading_in (7 / 10) true) (1 / 10)
      rfl).2.1⟩

/-! ## States that no call sequence reaches -/

namespace Label

variable {F E : Type}

theorem enterState_live (l : Label F E) (s : State) (a : ℚ)
    (h : l.m_state ≠ State.dead ∧ l.m_state ≠ State.out_of_screen)
    (hs : s ≠ State.dead ∧ s ≠ State.out_of_screen) :
    (l.enterState s a).m_state ≠ State.dead ∧
    (l.enterState s a).m_state ≠ State.out_of_screen := by
  rw [enterState_state l s a h.1]
  exact hs

theorem evalState_live (api : FadeEffectApi F E) (l : Label F E) (dt : ℚ)
    (h : l.m_state ≠ State.dead ∧ l.m_state ≠ State.out_of_screen) :
    (l.evalState api dt).2.m_state ≠ State.dead ∧
    (l.evalState api dt).2.m_state ≠ State.out_of_screen := by
  obtain ⟨h1, h2⟩ := h
  cases hs : l.m_state <;>
    simp only [evalState, hs, enterState, setAlpha] <;>
    (try split_ifs) <;>
    simp_all

theorem update_live (ust : Label F E → Bool → Bool × Vec2) (l : Label F E)
    (allLabels : Bool) (h : l.m_state ≠ State.dead ∧ l.m_state ≠ State.out_of_screen) :
    (l.update ust allLabels).2.m_state ≠ State.dead ∧
    (l.update ust allLabels).2.m_state ≠ State.out_of_screen := by
  unfold update
  simp only []
  split_ifs
  · exact h
  · exact enterState_live _ _ _ h (by decide)
  · exact h
  · exact enterState_live _ _ _ h (by decide)
  · exact h

theorem setParent_state (anchorDirection : Anchor → Vec2)
    (applyAnchor : Label F E → Vec2 → Vec2 → Anchor → Label F E)
    (hp : PlacesOnly applyAnchor) (l parent : Label F E) (addr : Nat)
    (definePriority : Bool) :
    (l.setParent anchorDirection applyAnchor addr parent definePriority).m_state
      = l.m_state := by
  have hs : ∀ (d o : Vec2) (a : Anchor),
      (applyAnchor { l with m_parent := some addr } d o a).m_state = l.m_state :=
    fun d o a => (hp _ d o a).2.1
  cases definePriority <;> simp [setParent, hs]

theorem setParent_options (anchorDirection : Anchor → Vec2)
    (applyAnchor : Label F E → Vec2 → Vec2 → Anchor → Label F E)
    (hp : PlacesOnly applyAnchor) (l parent : Label F E) (addr : Nat) :
    (l.setParent anchorDirection applyAnchor addr parent false).m_options
      = { l.m_options with offset := l.m_options.offset.add parent.m_options.offset } := by
  have ho : ∀ (d o : Vec2) (a : Anchor),
      (applyAnchor { l with m_parent := some addr } d o a).m_options = l.m_options :=
    fun d o a => (hp _ d o a).1
  simp [setParent, ho]

end Label

theorem Vec2.add_ne_self (c p : Vec2) (hp : p ≠ { x := 0, y := 0 }) :
    (c.add p).add p ≠ c.add p := by
  intro h
  apply hp
  obtain ⟨px, py⟩ := p
  obtain ⟨cx, cy⟩ := c
  simp only [Vec2.add, Vec2.mk.injEq] at h ⊢
  constructor <;> linarith [h.1, h.2]

theorem AnyCall.run_live {F E : Type} (api : FadeEffectApi F E) (l : Label F E)
    (c : AnyCall F E) (hc : c.Indirect)
    (h : l.m_state ≠ State.dead ∧ l.m_state ≠ State.out_of_screen) :
    (AnyCall.run api l c).m_state ≠ State.dead ∧
    (AnyCall.run api l c).m_state ≠ State.out_of_screen := by
  cases c with
  | basic c =>
    cases c with
    | update ust allLabels => exact Label.update_live ust l allLabels h
    | frame occluded dt => exact Label.evalState_live api _ dt h
    | skipTransitions => exact Label.enterState_live l _ _ h (by decide)
    | resetState =>
      simp only [AnyCall.run, Call.run, Label.resetState]
      split_ifs
      · exact h
      · exact Label.enterState_live _ _ _ h (by decide)
    | enterState s a => simp [AnyCall.Indirect, Call.isEnterState] at hc
  | setParent anchorDirection applyAnchor parentAddr parent definePriority =>
    simp only [AnyCall.run]
    rw [Label.setParent_state anchorDirection applyAnchor hc l parent parentAddr
      definePriority]
    exact h

theorem runAnyCalls_live {F E : Type} (api : FadeEffectApi F E) (cs : List (AnyCall F E)) :
    ∀ l : Label F E, (∀ c ∈ cs, c.Indirect) →
      (l.m_state ≠ State.dead ∧ l.m_state ≠ State.out_of_screen) →
      (runAnyCalls api l cs).m_state ≠ State.dead ∧
      (runAnyCalls api l cs).m_state ≠ State.out_of_screen := by
  induction cs with
  | nil => intro l _ h; exact h
  | cons c cs ih =>
    intro l hcs h
    exact ih (AnyCall.run api l c) (fun d hd => hcs d (List.mem_cons_of_mem c hd))
      (AnyCall.run_live api l c (hcs c (List.mem_cons_self c cs)) h)

theorem construct_live {F E : Type} (api : FadeEffectApi F E) (m_state0 : State)
    (h0 : m_state0 ≠ State.dead) (_transform : Transform) (_size : Vec2) (_type : LabelType)
    (_options : Options E) (_anchor : Anchor) :
    (Label.construct api m_state0 _transform _size _type _options _anchor).m_state
      ≠ State.dead ∧
    (Label.construct api m_state0 _transform _size _type _options _anchor).m_state
      ≠ State.out_of_screen := by
  by_cases hc : (!_options.collide || decide (_type = LabelType.debug)) = true
  · simp [Label.construct, hc, Label.enterState, h0, Label.setAlpha]
  · simp [Label.construct, hc]

/-- Unreachable states, away from the dead guard: when the value `m_state0` that the member
holds at the start of the constructor body is not `dead`, no sequence of `update`,
`evalState`, `skipTransitions`, `resetState` and `setParent` calls on the constructed label,
with any occlusion flags, `dt` values and projection results, puts the label in state `dead`
or `out_of_screen`; a direct `enterState` call on a label that is not dead does enter them.
The virtual `applyAnchor` is taken to leave the state of the label alone. -/
theorem dead_and_out_of_screen_unreachable {F E : Type} (api : FadeEffectApi F E)
    (m_state0 : State) (h0 : m_state0 ≠ State.dead) (_transform : Transform) (_size : Vec2)
    (_type : LabelType) (_options : Options E) (_anchor : Anchor)
    (cs : List (AnyCall F E)) (hcs : ∀ c ∈ cs, c.Indirect) :
    ((runAnyCalls api
        (Label.construct api m_state0 _transform _size _type _options _anchor) cs).m_state
      ≠ State.dead ∧
     (runAnyCalls api
        (Label.construct api m_state0 _transform _size _type _options _anchor) cs).m_state
      ≠ State.out_of_screen) ∧
    (∀ a : ℚ,
      ((runAnyCalls api
        (Label.construct api m_state0 _transform _size _type _options _anchor)
        cs).enterState State.dead a).m_state = State.dead ∧
      ((runAnyCalls api
        (Label.construct api m_state0 _transform _size _type _options _anchor)
        cs).enterState State.out_of_screen a).m_state = State.out_of_screen) := by
  have hlive := runAnyCalls_live api cs _ hcs
    (construct_live api m_state0 h0 _transform _size _type _options _anchor)
  exact ⟨hlive, fun a =>
    ⟨Label.enterState_state _ _ a hlive.1, Label.enterState_state _ _ a hlive.1⟩⟩

/-- An instance of `dead_and_out_of_screen_unreachable`: a collidable label after an occluded
frame, an invalid projection with `allLabels` set, a `setParent`, a `skipTransitions` and a
`resetState`. -/
theorem dead_and_out_of_screen_unreachable_witness :
    State.wait_occ ≠ State.dead ∧
    (∀ c ∈ [AnyCall.basic (Call.frame true (1 / 10)),
            AnyCall.basic (Call.update (sampleUst false) true),
            AnyCall.setParent sampleAnchorDirection sampleApplyAnchor 7 sampleParent true,
            AnyCall.basic Call.skipTransitions, AnyCall.basic Call.resetState],
      AnyCall.Indirect c) ∧
    (runAnyCalls linearApi
        (Label.construct linearApi State.wait_occ (sampleTransform 0) { x := 10, y := 4 }
          (LabelType.other 0) (sampleOptions true) Anchor.center)
        [AnyCall.basic (Call.frame true (1 / 10)),
         AnyCall.basic (Call.update (sampleUst false) true),
         AnyCall.setParent sampleAnchorDirection sampleApplyAnchor 7 sampleParent true,
         AnyCall.basic Call.skipTransitions, AnyCall.basic Call.resetState]).m_state
      ≠ State.dead ∧
    (runAnyCalls linearApi
        (Label.construct linearApi State.wait_occ (sampleTransform 0) { x := 10, y := 4 }
          (LabelType.other 0) (sampleOptions true) Anchor.center)
        [AnyCall.basic (Call.frame true (1 / 10)),
         AnyCall.basic (Call.update (sampleUst false) true),
         AnyCall.setParent sampleAnchorDirection sampleApplyAnchor 7 sampleParent true,
         AnyCall.basic Call.skipTransitions, AnyCall.basic Call.resetState]).m_state
      ≠ State.out_of_screen :=
  have hcs : ∀ c ∈ [AnyCall.basic (Call.frame true (1 / 10)),
      AnyCall.basic (Call.update (sampleUst false) true),
      AnyCall.setParent sampleAnchorDirection sampleApplyAnchor 7 sampleParent true,
      AnyCall.basic Call.skipTransitions, AnyCall.basic Call.resetState],
      AnyCall.Indirect c := by
    intro c hc
    simp only [List.mem_cons, List.mem_singleton, List.not_mem_nil, or_false] at hc
    rcases hc with hc | hc | hc | hc | hc <;> subst hc <;>
      first
        | exact sampleApplyAnchor_placesOnly
        | exact rfl
  ⟨by decide, hcs,
   (dead_and_out_of_screen_unreachable linearApi State.wait_occ (by decide)
      (sampleTransform 0) { x := 10, y := 4 } (LabelType.other 0) (sampleOptions true)
      Anchor.center
      [AnyCall.basic (Call.frame true (1 / 10)),
       AnyCall.basic (Call.update (sampleUst false) true),
       AnyCall.setParent sampleAnchorDirection sampleApplyAnchor 7 sampleParent true,
       AnyCall.basic Call.skipTransitions, AnyCall.basic Call.resetState] hcs).1⟩

/-! ## `setParent` without priority inheritance -/

/-- C23. `child.setParent(parent, false)` leaves the priority of the child unchanged and adds
the offset of the parent to the offset of the child, component by component. Consequently
`setParent` is not idempotent: whenever the offset of the parent is not zero, the offset of
the child after two calls differs from its offset after one call. The virtual `applyAnchor` is
taken to leave the options of the label alone, as in C19. -/
theorem setParent_without_priority {F E : Type} (anchorDirection : Anchor → Vec2)
    (applyAnchor : Label F E → Vec2 → Vec2 → Anchor → Label F E)
    (hp : PlacesOnly applyAnchor) (child parent : Label F E) (addr : Nat) :
    (child.setParent anchorDirection applyAnchor addr parent false).m_options.priority
      = child.m_options.priority ∧
    (child.setParent anchorDirection applyAnchor addr parent false).m_options.offset.x
      = child.m_options.offset.x + parent.m_options.offset.x ∧
    (child.setParent anchorDirection applyAnchor addr parent false).m_options.offset.y
      = child.m_options.offset.y + parent.m_options.offset.y ∧
    (parent.m_options.offset ≠ { x := 0, y := 0 } →
      ((child.setParent anchorDirection applyAnchor addr parent false).setParent
          anchorDirection applyAnchor addr parent false).m_options.offset
        ≠ (child.setParent anchorDirection applyAnchor addr parent false).m_options.offset) := by
  have h1 := Label.setParent_options anchorDirection applyAnchor hp child parent addr
  have h2 := Label.setParent_options anchorDirection applyAnchor hp
    (child.setParent anchorDirection applyAnchor addr parent false) parent addr
  refine ⟨?_, ?_, ?_, ?_⟩
  · rw [h1]
  · rw [h1]
    rfl
  · rw [h1]
    rfl
  · intro hne
    rw [h2, h1]
    exact Vec2.add_ne_self child.m_options.offset parent.m_options.offset hne

/-- Witness for C23: a child with offset (0, 0) and a parent with offset (2, 5); one call
gives the child the offset (2, 5), and a second call gives a different offset. -/
theorem setParent_without_priority_witness :
    PlacesOnly sampleApplyAnchor ∧
    sampleParent.m_options.offset ≠ { x := 0, y := 0 } ∧
    ((sampleLabel State.visible 1 false).setParent sampleAnchorDirection sampleApplyAnchor 7
        sampleParent false).m_options.priority
      = (sampleLabel State.visible 1 false).m_options.priority ∧
    (((sampleLabel State.visible 1 false).setParent sampleAnchorDirection sampleApplyAnchor 7
        sampleParent false).setParent sampleAnchorDirection sampleApplyAnchor 7
        sampleParent false).m_options.offset
      ≠ ((sampleLabel State.visible 1 false).setParent sampleAnchorDirection
          sampleApplyAnchor 7 sampleParent false).m_options.offset :=
  have hne : sampleParent.m_options.offset ≠ { x := 0, y := 0 } := by
    intro h
    have hx := congrArg Vec2.x h
    simp [sampleParent] at hx
  ⟨sampleApplyAnchor_placesOnly, hne,
   (setParent_without_priority sampleAnchorDirection sampleApplyAnchor
      sampleApplyAnchor_placesOnly (sampleLabel State.visible 1 false) sampleParent 7).1,
   (setParent_without_priority sampleAnchorDirection sampleApplyAnchor
      sampleApplyAnchor_placesOnly (sampleLabel State.visible 1 false) sampleParent 7).2.2.2
      hne⟩

/-! ## The constructor over a member that holds `dead`

The constructor does not initialise `m_state` before its non-colliding branch calls
`enterState`, which returns at once when the member holds `dead`. The colliding branch assigns
the member directly and is not affected. -/

theorem runCalls_of_dead {F E : Type} (api : FadeEffectApi F E) (cs : List (Call F E)) :
    ∀ l : Label F E, l.m_state = State.dead →
      (runCalls api l cs).m_state = State.dead ∧ (runCalls api l cs).alpha = l.alpha := by
  induction cs with
  | nil => intro l h; exact ⟨h, rfl⟩
  | cons c cs ih =>
    intro l h
    have hc := Call.run_of_dead api l c h
    have hr := ih (Call.run api l c) hc.1
    exact ⟨hr.1, hr.2.trans hc.2⟩

theorem construct_of_dead_member {F E : Type} (api : FadeEffectApi F E)
    (_transform : Transform) (_size : Vec2) (_type : LabelType) (_options : Options E)
    (_anchor : Anchor) (hc : _options.collide = false) :
    (Label.construct api State.dead _transform _size _type _options _anchor).m_state
      = State.dead ∧
    (Label.construct api State.dead _transform _size _type _options _anchor).alpha
      = _transform.state.alpha := by
  simp [Label.construct, hc, Label.enterState, Label.alpha]

/-- C1, the code at the failing input. A label constructed with collision disabled over a
member `m_state` that holds `dead` when the constructor body starts is not in state `visible`
with alpha 1: `enterState(visible, 1.0)` returns at its dead guard, the label is constructed
in state `dead`, and its alpha is the alpha of the transform it was given (here 7). -/
theorem construct_over_dead_member :
    (sampleOptions false).collide = false ∧
    (Label.construct linearApi State.dead (sampleTransform 7) { x := 10, y := 4 }
      (LabelType.other 0) (sampleOptions false) Anchor.center).m_state = State.dead ∧
    (Label.construct linearApi State.dead (sampleTransform 7) { x := 10, y := 4 }
      (LabelType.other 0) (sampleOptions false) Anchor.center).m_state ≠ State.visible ∧
    (Label.construct linearApi State.dead (sampleTransform 7) { x := 10, y := 4 }
      (LabelType.other 0) (sampleOptions false) Anchor.center).alpha = 7 ∧
    (Label.construct linearApi State.dead (sampleTransform 7) { x := 10, y := 4 }
      (LabelType.other 0) (sampleOptions false) Anchor.center).alpha ≠ 1 := by
  have h := construct_of_dead_member linearApi (sampleTransform 7) { x := 10, y := 4 }
    (LabelType.other 0) (sampleOptions false) Anchor.center rfl
  have ha : (Label.construct linearApi State.dead (sampleTransform 7) { x := 10, y := 4 }
      (LabelType.other 0) (sampleOptions false) Anchor.center).alpha = 7 := h.2
  refine ⟨rfl, h.1, ?_, ha, ?_⟩
  · rw [h.1]
    decide
  · rw [ha]
    norm_num

/-- C6, the code at the failing input. A label constructed with collision disabled and a
transform of alpha 7, over a member `m_state` that holds `dead` when the constructor body
starts, has alpha 7 after construction and still after a frame, a `skipTransitions`, a
`resetState`, an `enterState` and an `update`: the alpha is not in [0,1]. -/
theorem clamp_invariant_over_dead_member :
    (sampleOptions false).collide = false ∧
    (runCalls linearApi
      (Label.construct linearApi State.dead (sampleTransform 7) { x := 10, y := 4 }
        (LabelType.other 0) (sampleOptions false) Anchor.center)
      []).alpha = 7 ∧
    (runCalls linearApi
      (Label.construct linearApi State.dead (sampleTransform 7) { x := 10, y := 4 }
        (LabelType.other 0) (sampleOptions false) Anchor.center)
      [Call.frame false (1 / 10), Call.skipTransitions, Call.resetState,
       Call.enterState State.visible 1, Call.update (sampleUst false) true]).alpha = 7 ∧
    ¬ ((runCalls linearApi
      (Label.construct linearApi State.dead (sampleTransform 7) { x := 10, y := 4 }
        (LabelType.other 0) (sampleOptions false) Anchor.center)
      [Call.frame false (1 / 10), Call.skipTransitions, Call.resetState,
       Call.enterState State.visible 1, Call.update (sampleUst false) true]).alpha ≤ 1) := by
  have h := construct_of_dead_member linearApi (sampleTransform 7) { x := 10, y := 4 }
    (LabelType.other 0) (sampleOptions false) Anchor.center rfl
  have ha : (Label.construct linearApi State.dead (sampleTransform 7) { x := 10, y := 4 }
      (LabelType.other 0) (sampleOptions false) Anchor.center).alpha = 7 := h.2
  have hr := runCalls_of_dead linearApi
    [Call.frame false (1 / 10), Call.skipTransitions, Call.resetState,
     Call.enterState State.visible 1, Call.update (sampleUst false) true] _ h.1
  have hseq := hr.2.trans ha
  refine ⟨rfl, ha, hseq, ?_⟩
  rw [hseq]
  norm_num

/-- C22, the code at the failing input. A label constructed with collision disabled over a
member `m_state` that holds `dead` when the constructor body starts is in state `dead` right
after construction, before any call is made on it, and without any direct `enterState` call
from outside. -/
theorem dead_reached_by_constructor :
    (sampleOptions false).collide = false ∧
    (runAnyCalls linearApi
      (Label.construct linearApi State.dead (sampleTransform 7) { x := 10, y := 4 }
        (LabelType.other 0) (sampleOptions false) Anchor.center)
      []).m_state = State.dead ∧
    (runAnyCalls linearApi
      (Label.construct linearApi State.dead (sampleTransform 7) { x := 10, y := 4 }
        (LabelType.other 0) (sampleOptions false) Anchor.center)
      [AnyCall.basic (Call.frame false (1 / 10)),
       AnyCall.basic Call.resetState]).m_state = State.dead := by
  refine ⟨rfl, ?_, ?_⟩ <;> decide

end Tangram
